import Mathlib

/-!
The matrix-media-repo services for remote media download and URL previews.

A shallow embedding of

* `config/config.go` (the tunables and `NewDefaultConfig`),
* `services/media_service/remote_media_downloader.go` (`Download`),
* `services/url_service/opengraph_previewer.go` (`GeneratePreview` and helpers),

followed by the properties established about them.

Conventions.  Go strings are Lean `String`s.  `int64` values are `Int`; where
the source multiplies machine integers the product is wrapped to 64 bits with
`wrapInt64`.  An instant is an integer count of nanoseconds since the Unix
epoch, read by the cache through `UnixNano`.  Global mutable state (the failure cache singleton) is passed in
and returned explicitly.  The network and the third-party parsers are
parameters (`DownloadEnv`, `PreviewEnv`), so every statement holds for any
behaviour of the outside world.
-/

namespace MediaRepo

/-! ## Machine integers -/

/-- Two's-complement wrap of an integer to the `int64` range. -/
def wrapInt64 (x : Int) : Int := (x + 2 ^ 63) % 2 ^ 64 - 2 ^ 63

/-! ## Errors -/

deriving instance DecidableEq for Except

/-- The two ways `strconv` number parsing fails (`ErrSyntax`, `ErrRange`). -/
inductive NumErrKind
  | ErrSyntax
  | ErrRange
  deriving DecidableEq, Repr

/-- Modelled from the spec: package `util/errs` is not among the sources; its two
sentinels `ErrMediaNotFound` and `ErrMediaTooLarge` are the spec's failure
kinds `NotFound` and `TooLarge`, two distinct values.  The other constructors
are the Go `error` values the modelled code creates or passes on: `New msg` is
`errors.New(msg)`, `NumError` is `*strconv.NumError`, and `Transport` stands
for any error produced by the HTTP client, a body read or a library parser. -/
inductive GoError
  | ErrMediaNotFound
  | ErrMediaTooLarge
  | New (msg : String)
  | NumError (fn : String) (num : String) (kind : NumErrKind)
  | Transport (detail : String)
  deriving DecidableEq, Repr

/-! ## config/config.go -/

/-- Struct `DownloadsConfig` (the nested `Cache` block is not read by the modelled code). -/
structure DownloadsConfig where
  MaxSizeBytes : Int
  NumWorkers : Int
  FailureCacheMinutes : Int
  deriving DecidableEq, Repr

/-- Struct `UrlPreviewsConfig`.  `NumWords` is a word count: a negative value makes
`words[:maxWords]` in `summarize` abort the program, so the limit is a `Nat`. -/
structure UrlPreviewsConfig where
  Enabled : Bool
  NumWords : Nat
  MaxPageSizeBytes : Int
  NumWorkers : Int
  DisallowedNetworks : List String
  AllowedNetworks : List String
  deriving DecidableEq, Repr

/-- The part of `MediaRepoConfig` read by the two services. -/
structure MediaRepoConfig where
  Downloads : DownloadsConfig
  UrlPreviews : UrlPreviewsConfig
  deriving DecidableEq, Repr

/-- Function `NewDefaultConfig`, restricted to the `Downloads` and `UrlPreviews` blocks. -/
def NewDefaultConfig : MediaRepoConfig :=
  { Downloads :=
      { MaxSizeBytes := 104857600
        NumWorkers := 10
        FailureCacheMinutes := 15 }
    UrlPreviews :=
      { Enabled := true
        NumWords := 30
        MaxPageSizeBytes := 10485760
        NumWorkers := 10
        DisallowedNetworks :=
          ["127.0.0.1/8", "10.0.0.0/8", "172.16.0.0/12", "192.168.0.0/16",
           "100.64.0.0/10", "169.254.0.0/16"]
        AllowedNetworks := ["0.0.0.0/0"] } }

/-! ## strconv -/

/-- Value of a decimal digit, `none` for any other character. -/
def digitVal (c : Char) : Option Nat :=
  if 48 ≤ c.toNat ∧ c.toNat ≤ 57 then some (c.toNat - 48) else none

/-- The largest `uint64`. -/
def maxUint64 : Nat := 18446744073709551615

/-- The digit loop of Go's `strconv.ParseUint(s, 10, 64)` with `n` the value
read so far, character by character as the library does it: a character that
is not a decimal digit ends the scan with a syntax error and value 0; a digit
that would take the value past `maxUint64` ends it at once with a range error
and value `maxUint64`, whatever follows. -/
def parseUintLoop : List Char → Nat → Nat × Option NumErrKind
  | [], n => (n, none)
  | c :: cs, n =>
    match digitVal c with
    | none => (0, some .ErrSyntax)
    | some d =>
      if maxUint64 / 10 + 1 ≤ n then (maxUint64, some .ErrRange)
      else if maxUint64 < n * 10 + d then (maxUint64, some .ErrRange)
      else parseUintLoop cs (n * 10 + d)

/-- Go's `strconv.ParseUint(s, 10, 64)`: the value together with the kind of
error, the empty string being a syntax error. -/
def ParseUint (s : List Char) : Nat × Option NumErrKind :=
  match s with
  | [] => (0, some .ErrSyntax)
  | cs => parseUintLoop cs 0

/-- Sign and digit part of a numeric literal: an optional leading `+` or `-`
is split off. -/
def splitSign : List Char → Bool × List Char
  | '+' :: cs => (false, cs)
  | '-' :: cs => (true, cs)
  | cs => (false, cs)

/-- Go's `strconv.ParseInt(s, 10, 64)`: the value together with the error.
The empty string is a syntax error; otherwise the sign is picked off and the
rest goes through `ParseUint`.  A syntax error there gives value 0; a range
error there, or a magnitude outside `int64`, gives the nearest `int64` bound
and a range error. -/
def ParseInt (s : String) : Int × Option GoError :=
  match s.data with
  | [] => (0, some (.NumError "ParseInt" s .ErrSyntax))
  | cs =>
    match ParseUint (splitSign cs).2 with
    | (_, some .ErrSyntax) => (0, some (.NumError "ParseInt" s .ErrSyntax))
    | (un, _) =>
      if !(splitSign cs).1 && 2 ^ 63 ≤ un then
        (2 ^ 63 - 1, some (.NumError "ParseInt" s .ErrRange))
      else if (splitSign cs).1 && 2 ^ 63 < un then
        (-(2 ^ 63), some (.NumError "ParseInt" s .ErrRange))
      else
        (if (splitSign cs).1 then -(un : Int) else (un : Int), none)

/-- Go's `strconv.Atoi` on a 64-bit platform, value only (the callers drop
the error): the same value as `ParseInt(s, 10, 64)`, also where that is the
0 of a syntax error or the bound of a range error. -/
def Atoi (s : String) : Int := (ParseInt s).1

/-! ## HTTP replies -/

/-- A response body stream: the bytes it yields, then end of stream
(`err = none`) or a read error. -/
structure Body where
  data : List UInt8
  err : Option GoError
  deriving DecidableEq, Repr

/-- The parts of `*http.Response` the code reads.  `Header` is `Header.Get`
(the empty string for an absent header); `ContentLength` is -1 when unknown. -/
structure Response where
  StatusCode : Int
  Header : String → String
  ContentLength : Int
  Body : Body

/-! ## go-cache -/

/-- A cache entry of `github.com/patrickmn/go-cache`: `Expiration` is the
expiry instant in Unix nanoseconds, 0 for an entry that never expires. -/
structure Item where
  Object : GoError
  Expiration : Int
  deriving DecidableEq, Repr

/-- A `go-cache` cache: its default entry lifetime, its cleanup interval and
its map of items. -/
structure Cache where
  defaultExpiration : Int
  cleanupInterval : Int
  items : String → Option Item

/-- The constant `cache.DefaultExpiration` of `go-cache`. -/
def cache.DefaultExpiration : Int := 0

/-- Modelled from the spec: package `go-cache` is a dependency that is not
among the sources.  `cache.New(defaultExpiration, cleanupInterval)`: the first argument is the
default lifetime of an entry, the second the interval at which expired items
are purged; a default lifetime of 0 is stored as -1 (no expiry). -/
def cache.New (defaultExpiration cleanupInterval : Int) : Cache :=
  { defaultExpiration := if defaultExpiration = 0 then -1 else defaultExpiration
    cleanupInterval := cleanupInterval
    items := fun _ => none }

/-- Modelled from the spec: the reading `t.UnixNano()` that `go-cache` takes
of an instant `t`, counted in nanoseconds since the Unix epoch.  The reading
is an `int64`: an instant outside the `int64` range wraps. -/
def UnixNano (t : Int) : Int := wrapInt64 t

/-- Modelled from the spec: `(*Cache).Set(k, x, d)` of `go-cache`, executed at
instant `now`: `DefaultExpiration` selects the cache's default lifetime, and
only a positive lifetime gives an expiry instant, stored as
`time.Now().Add(d).UnixNano()`.  The lifetime is a `time.Duration`, an
`int64`, and is read as one. -/
def Cache.Set (c : Cache) (k : String) (x : GoError) (d : Int) (now : Int) : Cache :=
  let d := wrapInt64 (if d = cache.DefaultExpiration then c.defaultExpiration else d)
  let e : Int := if d > 0 then UnixNano (now + d) else 0
  { c with items := fun k' => if k' = k then some { Object := x, Expiration := e } else c.items k' }

/-- Modelled from the spec: `(*Cache).Get(k)` of `go-cache`, executed at
instant `now`: an item with a positive expiry instant that
`time.Now().UnixNano()` has passed is reported as not found, whether or not
the janitor has purged it yet. -/
def Cache.Get (c : Cache) (k : String) (now : Int) : Option GoError :=
  match c.items k with
  | none => none
  | some item =>
    if item.Expiration > 0 ∧ UnixNano now > item.Expiration then none else some item.Object

/-- Modelled from the spec: `(*Cache).DeleteExpired()` of `go-cache`, executed
at instant `now`; the janitor runs it once per cleanup interval. -/
def Cache.DeleteExpired (c : Cache) (now : Int) : Cache :=
  { c with items := fun k =>
      match c.items k with
      | none => none
      | some item =>
        if item.Expiration > 0 ∧ UnixNano now > item.Expiration then none else some item }

/-! ## services/media_service/remote_media_downloader.go -/

/-- Struct `downloadedMedia`. -/
structure downloadedMedia where
  Contents : Body
  DesiredFilename : String
  ContentType : String
  deriving DecidableEq, Repr

/-- The outside world of `Download`: the federation client and the MIME
header parser (`params` is the parameter map, the empty string for a missing
key). -/
structure DownloadEnv where
  CreateMediaDownloadRequest : String → String → Except GoError Response
  ParseMediaType : String → Except GoError (String × (String → String))

/-- Go's `time.Minute`, in nanoseconds. -/
def time.Minute : Int := 60000000000

/-- The cache built by the one-time initialiser in `Download`. -/
def newDownloadErrorsCache (cfg : MediaRepoConfig) : Cache :=
  let cacheTime := wrapInt64 (cfg.Downloads.FailureCacheMinutes * time.Minute)
  cache.New cacheTime (wrapInt64 (cacheTime * 2))

/-- What one call of `Download` produces: the returned pair, the failure
cache afterwards, and the download requests sent to the origin. -/
structure DownloadOutcome where
  result : Except GoError downloadedMedia
  downloadErrorsCache : Option Cache
  requests : List (String × String)

/-- The global `downloadErrorsCache` after the nil check at the head of
`Download`: built on first use, otherwise left as it is. -/
def initErrorsCache (cfg : MediaRepoConfig) (downloadErrorsCache : Option Cache) : Cache :=
  match downloadErrorsCache with
  | none => newDownloadErrorsCache cfg
  | some c => c

/-- The failure-cache key: `cacheKey := server + "/" + mediaId`. -/
def cacheKey (server mediaId : String) : String := server ++ "/" ++ mediaId

/-- Method `(*remoteMediaDownloader).Download(server, mediaId)`, run at instant `now`
with the global `downloadErrorsCache` as given. -/
def Download (env : DownloadEnv) (cfg : MediaRepoConfig) (downloadErrorsCache : Option Cache)
    (now : Int) (server mediaId : String) : DownloadOutcome :=
  let errCache : Cache := initErrorsCache cfg downloadErrorsCache
  let cacheKey := cacheKey server mediaId
  match errCache.Get cacheKey now with
  | some item => { result := .error item, downloadErrorsCache := some errCache, requests := [] }
  | none =>
    let sent := [(server, mediaId)]
    match env.CreateMediaDownloadRequest server mediaId with
    | .error err =>
      { result := .error err
        downloadErrorsCache := some (errCache.Set cacheKey err cache.DefaultExpiration now)
        requests := sent }
    | .ok resp =>
      if resp.StatusCode = 404 then
        let err := GoError.ErrMediaNotFound
        { result := .error err
          downloadErrorsCache := some (errCache.Set cacheKey err cache.DefaultExpiration now)
          requests := sent }
      else if resp.StatusCode ≠ 200 then
        let err := GoError.New "could not fetch remote media"
        { result := .error err
          downloadErrorsCache := some (errCache.Set cacheKey err cache.DefaultExpiration now)
          requests := sent }
      else
        match ParseInt (resp.Header "Content-Length") with
        | (_, some err) =>
          { result := .error err, downloadErrorsCache := some errCache, requests := sent }
        | (contentLength, none) =>
          if cfg.Downloads.MaxSizeBytes > 0 ∧ contentLength > cfg.Downloads.MaxSizeBytes then
            let err := GoError.ErrMediaTooLarge
            { result := .error err
              downloadErrorsCache := some (errCache.Set cacheKey err cache.DefaultExpiration now)
              requests := sent }
          else
            let request : downloadedMedia :=
              { ContentType := resp.Header "Content-Type"
                Contents := resp.Body
                DesiredFilename := "" }
            let request :=
              match env.ParseMediaType (resp.Header "Content-Disposition") with
              | .ok (_, params) =>
                if params "filename" ≠ "" then
                  { request with DesiredFilename := params "filename" }
                else request
              | .error _ => request
            { result := .ok request, downloadErrorsCache := some errCache, requests := sent }

/-! ### Sample inputs -/

/-- Headers given as a list of pairs. -/
def headerOf (hs : List (String × String)) (name : String) : String :=
  match hs.find? (fun p => p.1 = name) with
  | some p => p.2
  | none => ""

/-- A `200` reply with the given `Content-Length` header and a three-byte body. -/
def okReply (contentLength : String) : Response :=
  { StatusCode := 200
    Header := headerOf [("Content-Length", contentLength), ("Content-Type", "image/png")]
    ContentLength := Atoi contentLength
    Body := { data := [1, 2, 3], err := none } }

/-- A world whose origin answers every download request with `r` and whose
MIME parser finds no parameters. -/
def constEnv (r : Except GoError Response) : DownloadEnv :=
  { CreateMediaDownloadRequest := fun _ _ => r
    ParseMediaType := fun _ => .ok ("", fun _ => "") }

/-- The failure recorded under `key` as a lookup at instant `now` sees it. -/
def lookupFailure (downloadErrorsCache : Option Cache) (key : String) (now : Int) :
    Option GoError :=
  match downloadErrorsCache with
  | none => none
  | some c => c.Get key now

/-- The error object stored under `key`, expired or not. -/
def storedFailure (downloadErrorsCache : Option Cache) (key : String) : Option GoError :=
  match downloadErrorsCache with
  | none => none
  | some c => (c.items key).map (fun item => item.Object)

/-- The call of `Download` ended at the status check: it returned one of the two errors
produced there. -/
def stopsAtStatusStep (out : DownloadOutcome) : Prop :=
  out.result = .error .ErrMediaNotFound ∨
    out.result = .error (.New "could not fetch remote media")

/-- A reply with the given status, a declared length of three and a
three-byte body. -/
def statusReply (status : Int) : Response :=
  { okReply "3" with StatusCode := status }


/-! ## services/url_service/opengraph_previewer.go -/

/-! ### Whitespace and `summarize` -/

/-- Membership in the regular-expression class `[\s\p{Zs}]` of Go's `regexp`:
`\s` is tab, line feed, form feed, carriage return and space; `\p{Zs}` is the
Unicode category of space separators. -/
def isSpaceClass (c : Char) : Bool :=
  c = '\t' || c = '\n' || c.toNat = 12 || c = '\r' || c = ' ' ||
  c.toNat = 0xA0 || c.toNat = 0x1680 || (0x2000 ≤ c.toNat && c.toNat ≤ 0x200A) ||
  c.toNat = 0x202F || c.toNat = 0x205F || c.toNat = 0x3000

/-- The call `surroundingWhitespace.ReplaceAllString(text, "")` for the pattern
`^[\s\p{Zs}]+|[\s\p{Zs}]+$`: the leading and the trailing run of class
characters are deleted. -/
def removeSurroundingWhitespace (text : List Char) : List Char :=
  ((text.dropWhile isSpaceClass).reverse.dropWhile isSpaceClass).reverse

/-- What a finished run of class characters is replaced with under the
pattern `[\s\p{Zs}]{2,}`: a run of two or more matches and becomes one space,
a shorter run does not match and stays. -/
def flushRun (pending : List Char) : List Char :=
  if 2 ≤ pending.length then [' '] else pending

/-- The call `interiorWhitespace.ReplaceAllString(text, " ")` for the pattern
`[\s\p{Zs}]{2,}`, as a left-to-right scan; `pending` is the run of class
characters read since the last other character. -/
def replaceInteriorWhitespace : List Char → List Char → List Char
  | pending, [] => flushRun pending
  | pending, c :: cs =>
    if isSpaceClass c then replaceInteriorWhitespace (pending ++ [c]) cs
    else flushRun pending ++ c :: replaceInteriorWhitespace [] cs

/-- The replacement of one character under the pattern `[\r\n]` with `" "`. -/
def newlineToSpace (c : Char) : Char :=
  if c = '\r' ∨ c = '\n' then ' ' else c

/-- The call `newlines.ReplaceAllString(text, " ")` for the pattern `[\r\n]`. -/
def replaceNewlines (text : List Char) : List Char := text.map newlineToSpace

/-- Go's `strings.Split(text, " ")`: the pieces between single spaces; always at
least one piece. -/
def splitOnSpace : List Char → List (List Char)
  | [] => [[]]
  | c :: cs =>
    if c = ' ' then [] :: splitOnSpace cs
    else
      match splitOnSpace cs with
      | w :: ws => (c :: w) :: ws
      | [] => [[c]]

/-- Go's `strings.Join(words, " ")`. -/
def joinWithSpace (words : List (List Char)) : List Char :=
  List.intercalate [' '] words

/-- The three whitespace replacements at the head of `summarize`. -/
def crushWhitespace (text : List Char) : List Char :=
  replaceNewlines (replaceInteriorWhitespace [] (removeSurroundingWhitespace text))

/-- Function `summarize(text)`, with `maxWords = UrlPreviews.NumWords`. -/
def summarize (cfg : MediaRepoConfig) (text : String) : String :=
  let text := crushWhitespace text.data
  let maxWords := cfg.UrlPreviews.NumWords
  let words := splitOnSpace text
  if words.length < maxWords then String.mk text
  else String.mk (joinWithSpace (words.take maxWords))

/-! ### The parsed document (`golang.org/x/net/html` and `goquery`) -/

/-- A node of the parsed HTML tree: a text node or an element with its
attributes and children, in document order. -/
inductive Node
  | text (data : String)
  | element (tag : String) (attrs : List (String × String)) (children : List Node)
  deriving Repr

/-- A parsed document: the children of the root document node. -/
abbrev Document := List Node

/-- The `goquery` attribute lookup on one node: the value of the first attribute
with the given key and whether it exists. -/
def Node.Attr (n : Node) (name : String) : String × Bool :=
  match n with
  | .text _ => ("", false)
  | .element _ attrs _ =>
    match attrs.find? (fun a => a.1 = name) with
    | some a => (a.2, true)
    | none => ("", false)

/-- The selectors the code uses: a tag name, or `meta[name='description']`. -/
def matchesSelector (selector : String) (n : Node) : Bool :=
  match n with
  | .text _ => false
  | .element tag _ _ =>
    if selector = "meta[name='description']" then
      tag = "meta" && ((n.Attr "name").2 && (n.Attr "name").1 = "description")
    else tag = selector

mutual
/-- Every node of the subtree of `n` that matches, the node itself first. -/
def Node.matchAll (selector : String) : Node → List Node
  | .text _ => []
  | .element tag attrs children =>
    (if matchesSelector selector (.element tag attrs children) then
      [.element tag attrs children] else [])
      ++ matchAllList selector children
/-- The matches of a list of sibling subtrees, in document order. -/
def matchAllList (selector : String) : List Node → List Node
  | [] => []
  | c :: cs => c.matchAll selector ++ matchAllList selector cs
end

mutual
/-- The text nodes below (and including) a node, concatenated. -/
def Node.textContent : Node → String
  | .text d => d
  | .element _ _ children => textOfList children
/-- The concatenated text of a list of nodes. -/
def textOfList : List Node → String
  | [] => ""
  | c :: cs => c.textContent ++ textOfList cs
end

mutual
/-- A node with every matching descendant detached. -/
def Node.removeMatching (selector : String) : Node → Node
  | .text d => .text d
  | .element tag attrs children => .element tag attrs (removeMatchingList selector children)
/-- A list of siblings with every matching node, at any depth, detached. -/
def removeMatchingList (selector : String) : List Node → List Node
  | [] => []
  | c :: cs =>
    if matchesSelector selector c then removeMatchingList selector cs
    else c.removeMatching selector :: removeMatchingList selector cs
end

/-- The `goquery` call `doc.Find(selector)`: the matched elements in document order. -/
def Document.Find (doc : Document) (selector : String) : List Node :=
  matchAllList selector doc

/-- The `goquery` call `Selection.Text()`: the combined text of every matched element. -/
def selectionText (sel : List Node) : String :=
  sel.foldl (fun acc n => acc ++ n.textContent) ""

/-- The `goquery` call `Selection.Attr(name)`: the attribute of the first matched element. -/
def selectionAttr (sel : List Node) (name : String) : String × Bool :=
  match sel with
  | [] => ("", false)
  | n :: _ => n.Attr name

/-- The `goquery` call `doc.Find(selector).Remove()`: the document without the matched elements. -/
def Document.Remove (doc : Document) (selector : String) : Document :=
  removeMatchingList selector doc

/-! ### OpenGraph data and the outside world -/

/-- Struct `opengraph.Image`, the field the code reads. -/
structure OgImage where
  URL : String
  deriving DecidableEq, Repr

/-- Struct `opengraph.OpenGraph`, the fields the code reads (`Type_` is Go's `Type`). -/
structure OpenGraph where
  Type_ : String
  URL : String
  Title : String
  Description : String
  SiteName : String
  Images : List OgImage
  deriving DecidableEq, Repr

/-- Struct `openGraphImage`. -/
structure openGraphImage where
  ContentType : String
  Data : Body
  Filename : String
  ContentLength : Int
  ContentLengthHeader : String
  deriving DecidableEq, Repr

/-- Struct `openGraphResult` (`Type_` is Go's `Type`). -/
structure openGraphResult where
  Url : String
  SiteName : String
  Type_ : String
  Description : String
  Title : String
  Image : Option openGraphImage
  deriving DecidableEq, Repr

/-- A page as downloaded: the bytes of the Go string `html`. -/
abbrev Html := List UInt8

/-- A parsed `*url.URL`, kept as the components `net/url` splits it into. -/
structure URL where
  Scheme : String
  Host : String
  Path : String
  RawQuery : String
  Fragment : String
  deriving DecidableEq, Repr

/-- The outside world of `GeneratePreview`.  `httpGet n u` is the reply to the
`n`-th `http.Get` of the call (0 the page, 1 the image) for URL `u`; the
remaining fields are the library parsers the code calls. -/
structure PreviewEnv where
  httpGet : Nat → String → Except GoError Response
  ProcessHTML : Html → Except GoError OpenGraph
  NewDocumentFromReader : Html → Except GoError Document
  urlParse : String → Except GoError URL
  ResolveReference : URL → URL → URL
  urlString : URL → String
  ParseMediaType : String → Except GoError (String × (String → String))

/-- Go's `io.LimitReader(r, n)` for `n > 0`: the stream stops after `n` bytes; it
reaches the end or the error of `r` only when `r` yields fewer bytes. -/
def LimitReader (r : Body) (n : Int) : Body :=
  if n.toNat ≤ r.data.length then { data := r.data.take n.toNat, err := none } else r

/-- Go's `ioutil.ReadAll(r)`: all bytes up to the end of the stream, or the read
error. -/
def ReadAll (r : Body) : Except GoError (List UInt8) :=
  match r.err with
  | none => .ok r.data
  | some err => .error err

/-- Function `downloadContent(urlStr, log)`. -/
def downloadContent (env : PreviewEnv) (cfg : MediaRepoConfig) (urlStr : String) :
    Except GoError Html :=
  match env.httpGet 0 urlStr with
  | .error err => .error err
  | .ok resp =>
    if resp.StatusCode ≠ 200 then .error (.New "error during transfer")
    else if cfg.UrlPreviews.MaxPageSizeBytes > 0 ∧ resp.ContentLength ≥ 0 ∧
        resp.ContentLength > cfg.UrlPreviews.MaxPageSizeBytes then
      .error .ErrMediaTooLarge
    else
      let reader : Body :=
        if cfg.UrlPreviews.MaxPageSizeBytes > 0 then
          LimitReader resp.Body cfg.UrlPreviews.MaxPageSizeBytes
        else resp.Body
      match ReadAll reader with
      | .error err => .error err
      | .ok bytes => .ok bytes

/-- Function `downloadImage(imageUrl, log)`; it issues the second `http.Get` of a
`GeneratePreview` call. -/
def downloadImage (env : PreviewEnv) (imageUrl : String) : Except GoError openGraphImage :=
  match env.httpGet 1 imageUrl with
  | .error err => .error err
  | .ok resp =>
    if resp.StatusCode ≠ 200 then .error (.New "error during transfer")
    else
      let image : openGraphImage :=
        { ContentType := resp.Header "Content-Type"
          Data := resp.Body
          Filename := ""
          ContentLength := resp.ContentLength
          ContentLengthHeader := resp.Header "Content-Length" }
      match env.ParseMediaType (resp.Header "Content-Disposition") with
      | .ok (_, params) =>
        if params "filename" ≠ "" then .ok { image with Filename := params "filename" }
        else .ok image
      | .error _ => .ok image

/-- Function `calcTitle(html)`. -/
def calcTitle (env : PreviewEnv) (html : Html) : String :=
  match env.NewDocumentFromReader html with
  | .error _ => ""
  | .ok doc =>
    let titleText := selectionText (doc.Find "title")
    if titleText ≠ "" then titleText
    else
      let h1Text := selectionText (doc.Find "h1")
      if h1Text ≠ "" then h1Text
      else
        let h2Text := selectionText (doc.Find "h2")
        if h2Text ≠ "" then h2Text
        else
          let h3Text := selectionText (doc.Find "h3")
          if h3Text ≠ "" then h3Text
          else ""

/-- Function `calcDescription(html)`. -/
def calcDescription (env : PreviewEnv) (html : Html) : String :=
  match env.NewDocumentFromReader html with
  | .error _ => ""
  | .ok doc =>
    let (metaDescription, found) := selectionAttr (doc.Find "meta[name='description']") "content"
    if found ∧ metaDescription ≠ "" then metaDescription
    else
      let doc := doc.Remove "header"
      let doc := doc.Remove "nav"
      let doc := doc.Remove "aside"
      let doc := doc.Remove "footer"
      let doc := doc.Remove "noscript"
      let doc := doc.Remove "script"
      let doc := doc.Remove "style"
      selectionText (doc.Find "body")

/-- What the callback of `doc.Find("img").Each` reads from one element before
it compares areas: `src`, `w` and `h`, or `none` when it returns early (no or
empty `src`, no `width`, no `height`, or a side below 10). -/
def imageCandidate (s : Node) : Option (String × Int × Int) :=
  let (src, srcExists) := s.Attr "src"
  if !srcExists || src = "" then none
  else
    let (wStr, wExists) := s.Attr "width"
    if !wExists then none
    else
      let (hStr, hExists) := s.Attr "height"
      if !hExists then none
      else
        let w := Atoi wStr
        let h := Atoi hStr
        if w < 10 ∨ h < 10 then none
        else some (src, w, h)

/-- One run of the callback of `doc.Find("img").Each` on the variables
`(imageSrc, dimensionScore)`; `w * h` is a product of Go `int`s (64 bits). -/
def eachImage (acc : String × Int) (s : Node) : String × Int :=
  match imageCandidate s with
  | none => acc
  | some (src, w, h) =>
    if wrapInt64 (w * h) < acc.2 ∨ acc.2 = 0 then (src, wrapInt64 (w * h)) else acc

/-- The body of `calcImages` after parsing, on the matched `<img>` elements. -/
def selectImage (imgs : List Node) : List OgImage :=
  let (imageSrc, dimensionScore) := imgs.foldl eachImage ("", 0)
  if imageSrc = "" ∨ dimensionScore ≤ 0 then [] else [{ URL := imageSrc }]

/-- Function `calcImages(html)`. -/
def calcImages (env : PreviewEnv) (html : Html) : List OgImage :=
  match env.NewDocumentFromReader html with
  | .error _ => []
  | .ok doc => selectImage (doc.Find "img")

/-- Method `(*openGraphUrlPreviewer).GeneratePreview(urlStr)`. -/
def GeneratePreview (env : PreviewEnv) (cfg : MediaRepoConfig) (urlStr : String) :
    Except GoError openGraphResult :=
  match downloadContent env cfg urlStr with
  | .error _ => .error .ErrMediaNotFound
  | .ok html =>
    match env.ProcessHTML html with
    | .error err => .error err
    | .ok og =>
      let og := if og.Title = "" then { og with Title := calcTitle env html } else og
      let og :=
        if og.Description = "" then { og with Description := calcDescription env html } else og
      let og := if og.Images.length = 0 then { og with Images := calcImages env html } else og
      let graph : openGraphResult :=
        { Type_ := og.Type_
          Url := og.URL
          Title := og.Title
          Description := summarize cfg og.Description
          SiteName := og.SiteName
          Image := none }
      match og.Images with
      | [] => .ok graph
      | first :: _ =>
        match env.urlParse urlStr with
        | .error _ => .ok graph
        | .ok baseUrl =>
          match env.urlParse first.URL with
          | .error _ => .ok graph
          | .ok imgUrl =>
            let imgAbsUrl := env.ResolveReference baseUrl imgUrl
            match downloadImage env (env.urlString imgAbsUrl) with
            | .error _ => .ok graph
            | .ok img => .ok { graph with Image := some img }

/-! ### Sample inputs for the previewer -/

/-- The default configuration with another word limit. -/
def configWithWords (n : Nat) : MediaRepoConfig :=
  { NewDefaultConfig with UrlPreviews := { NewDefaultConfig.UrlPreviews with NumWords := n } }

/-- The default configuration with another page-size ceiling. -/
def configWithPageSize (m : Int) : MediaRepoConfig :=
  { NewDefaultConfig with
    UrlPreviews := { NewDefaultConfig.UrlPreviews with MaxPageSizeBytes := m } }

/-- An `<img>` element with the given `src`, `width` and `height`. -/
def imgElement (src width height : String) : Node :=
  .element "img" [("src", src), ("width", width), ("height", height)] []

/-- A page reply with status 200, the given `ContentLength` field and body. -/
def pageReply (contentLength : Int) (body : List UInt8) : Response :=
  { StatusCode := 200
    Header := headerOf [("Content-Type", "text/html")]
    ContentLength := contentLength
    Body := { data := body, err := none } }

/-- The bytes of a page read as text, one character per byte. -/
def bytesAsText (html : Html) : String :=
  String.mk (html.map (fun b => Char.ofNat b.toNat))

/-- A parsed page that consists of one `<title>` element holding the page
bytes as text. -/
def titleOnly (html : Html) : Document :=
  [.element "title" [] [.text (bytesAsText html)]]

/-- A world for examples: the page request is answered with `page`, the image
request with `image`; the OpenGraph parser finds `og`, the HTML parser finds
`parse html`; every URL parses. -/
def sampleEnv (page image : Except GoError Response) (og : OpenGraph) (parse : Html → Document) :
    PreviewEnv :=
  { httpGet := fun n _ => if n = 0 then page else image
    ProcessHTML := fun _ => .ok og
    NewDocumentFromReader := fun html => .ok (parse html)
    urlParse := fun s =>
      .ok { Scheme := "http", Host := "example.org", Path := s, RawQuery := "", Fragment := "" }
    ResolveReference := fun _ ref => ref
    urlString := fun u => u.Path
    ParseMediaType := fun _ => .ok ("", fun _ => "") }

/-- An OpenGraph parse that found nothing. -/
def emptyOpenGraph : OpenGraph :=
  { Type_ := "", URL := "", Title := "", Description := "", SiteName := "", Images := [] }

/-- A page whose body holds one `<h1>Hello</h1>` and no `<title>`. -/
def helloPage : Document :=
  [.element "html" [] [.element "head" [] [], .element "body" [] [.element "h1" [] [.text "Hello"]]]]

/-- The two `<img>` elements of the specification's example. -/
def twoImages : Document :=
  [imgElement "a" "100" "100", imgElement "b" "10" "10"]

/-- An OpenGraph parse that found one image and nothing else. -/
def openGraphWithImage : OpenGraph :=
  { emptyOpenGraph with Images := [{ URL := "/cat.png" }] }

/-- A failing network request. -/
def unreachable : Except GoError Response := .error (.Transport "connection refused")

/-! ### Specification-side definitions -/

/-- The maximal runs of a text: each run is a longest stretch of characters
that are all whitespace (`true`) or all non-whitespace (`false`). -/
def runs : List Char → List (Bool × List Char)
  | [] => []
  | c :: cs =>
    match runs cs with
    | (b, r) :: rest =>
      if isSpaceClass c = b then (b, c :: r) :: rest
      else (isSpaceClass c, [c]) :: (b, r) :: rest
    | [] => [(isSpaceClass c, [c])]

/-- Normalisation as the specification words it: every whitespace run, of
whatever length, becomes one space. -/
def renderStated (run : Bool × List Char) : List Char :=
  if run.1 then [' '] else run.2

/-- Normalisation as the code performs it: a whitespace run of two or more
characters becomes one space; a single whitespace character becomes a space
when it is a carriage return or a line feed and is kept otherwise. -/
def renderAmended (run : Bool × List Char) : List Char :=
  if run.1 then (if 2 ≤ run.2.length then [' '] else run.2.map newlineToSpace) else run.2

/-- The normalised text in the specification's wording: surrounding
whitespace removed, every whitespace run replaced by a single space. -/
def normaliseStated (text : List Char) : List Char :=
  ((runs (removeSurroundingWhitespace text)).map renderStated).flatten

/-- The normalised text in the amended wording. -/
def normaliseAmended (text : List Char) : List Char :=
  ((runs (removeSurroundingWhitespace text)).map renderAmended).flatten

/-- A text cut to its first `n` words, words being the pieces between single
spaces. -/
def firstWords (n : Nat) (text : List Char) : List Char :=
  joinWithSpace ((splitOnSpace text).take n)

/-- An `<img>` element qualifies, in the specification's wording: `src` is
present and non-empty, `width` and `height` are present and both parse to
integers that are at least 10. -/
def qualifies (n : Node) : Prop :=
  (n.Attr "src").2 = true ∧ (n.Attr "src").1 ≠ ""
  ∧ (n.Attr "width").2 = true ∧ (n.Attr "height").2 = true
  ∧ (ParseInt (n.Attr "width").1).2 = none ∧ (ParseInt (n.Attr "height").1).2 = none
  ∧ 10 ≤ (ParseInt (n.Attr "width").1).1 ∧ 10 ≤ (ParseInt (n.Attr "height").1).1

instance : DecidablePred qualifies := fun n => by
  unfold qualifies
  infer_instance

/-- The area `width * height` of an element, as a mathematical integer. -/
def area (n : Node) : Int :=
  (ParseInt (n.Attr "width").1).1 * (ParseInt (n.Attr "height").1).1

/-- The element `x` of `imgs` is the first one of minimal area among the
qualifying elements: every qualifying element before it is strictly larger,
every one after it at least as large. -/
def firstOfMinimalArea (imgs : List Node) (x : Node) : Prop :=
  ∃ pre post, imgs = pre ++ x :: post ∧ qualifies x
    ∧ (∀ y ∈ pre, qualifies y → area x < area y)
    ∧ (∀ y ∈ post, qualifies y → area x ≤ area y)

/-- The state of the loop of `calcImages` after the elements `l`, when no
area overflows: nothing chosen yet and no qualifying element seen, or the
first element of minimal area together with its area. -/
def ImageLoopInv (l : List Node) (acc : String × Int) : Prop :=
  ((∀ n ∈ l, ¬ qualifies n) ∧ acc = ("", 0))
  ∨ ∃ x, firstOfMinimalArea l x ∧ acc = ((x.Attr "src").1, area x)

/-- The first non-empty string of a list, the empty string when there is none. -/
def firstNonEmpty (candidates : List String) : String :=
  (candidates.find? (fun s => s ≠ "")).getD ""

/-- The OpenGraph data after the three fallbacks of `GeneratePreview` (title,
description, images) have filled the fields the page left empty. -/
def withFallbacks (env : PreviewEnv) (html : Html) (og : OpenGraph) : OpenGraph :=
  let og := if og.Title = "" then { og with Title := calcTitle env html } else og
  let og :=
    if og.Description = "" then { og with Description := calcDescription env html } else og
  if og.Images.length = 0 then { og with Images := calcImages env html } else og

/-- The result `graph` that `GeneratePreview` builds before it looks for an
image. -/
def resultWithoutImage (cfg : MediaRepoConfig) (og : OpenGraph) : openGraphResult :=
  { Type_ := og.Type_
    Url := og.URL
    Title := og.Title
    Description := summarize cfg og.Description
    SiteName := og.SiteName
    Image := none }

/-- The image step of `GeneratePreview` fails for the candidate `first`: the
page URL does not parse, the image URL does not parse, or the image download
fails. -/
def imageStepFails (env : PreviewEnv) (urlStr : String) (first : OgImage) : Prop :=
  (∃ e, env.urlParse urlStr = .error e)
  ∨ (∃ e, env.urlParse first.URL = .error e)
  ∨ ∃ baseUrl imgUrl e, env.urlParse urlStr = .ok baseUrl ∧ env.urlParse first.URL = .ok imgUrl
      ∧ downloadImage env (env.urlString (env.ResolveReference baseUrl imgUrl)) = .error e

/-- The tail of `GeneratePreview`, from the construction of `graph` on, as a
function of the OpenGraph data after fallbacks. -/
def attachImage (env : PreviewEnv) (cfg : MediaRepoConfig) (urlStr : String) (og : OpenGraph) :
    Except GoError openGraphResult :=
  match og.Images with
  | [] => .ok (resultWithoutImage cfg og)
  | first :: _ =>
    match env.urlParse urlStr with
    | .error _ => .ok (resultWithoutImage cfg og)
    | .ok baseUrl =>
      match env.urlParse first.URL with
      | .error _ => .ok (resultWithoutImage cfg og)
      | .ok imgUrl =>
        match downloadImage env (env.urlString (env.ResolveReference baseUrl imgUrl)) with
        | .error _ => .ok (resultWithoutImage cfg og)
        | .ok img => .ok { resultWithoutImage cfg og with Image := some img }

/-! ## Properties of the failure cache and of `Download` -/

/-- A lookup of a key just set finds the object unless the stored expiry
instant is positive and passed. -/
theorem Get_Set_same (c : Cache) (k : String) (x : GoError) (now now2 : Int)
    (h : wrapInt64 c.defaultExpiration ≤ 0
      ∨ UnixNano (now + wrapInt64 c.defaultExpiration) ≤ 0
      ∨ UnixNano now2 ≤ UnixNano (now + wrapInt64 c.defaultExpiration)) :
    (c.Set k x cache.DefaultExpiration now).Get k now2 = some x := by
  simp only [Cache.Set, Cache.Get, cache.DefaultExpiration, if_true]
  split_ifs <;> first | rfl | omega

/-- A lookup at the very instant of the write always finds the object. -/
theorem Get_Set_now (c : Cache) (k : String) (x : GoError) (now : Int) :
    (c.Set k x cache.DefaultExpiration now).Get k now = some x := by
  apply Get_Set_same
  simp only [UnixNano, wrapInt64]
  norm_num
  omega

theorem Get_Set_other (c : Cache) (k k2 : String) (x : GoError) (d now now2 : Int)
    (h : k2 ≠ k) : (c.Set k x d now).Get k2 now2 = c.Get k2 now2 := by
  simp [Cache.Set, Cache.Get, h]

theorem ParseInt_error_kind (s : String) (v : Int) (err : GoError)
    (h : ParseInt s = (v, some err)) : ∃ k, err = .NumError "ParseInt" s k := by
  unfold ParseInt at h
  split at h
  · simp at h; exact ⟨_, h.2.symm⟩
  · split at h
    · simp at h; exact ⟨_, h.2.symm⟩
    · split_ifs at h <;> first | (simp at h; done) | (simp at h; exact ⟨_, h.2.symm⟩)

theorem wrapInt64_of_range (x : Int) (h1 : -9223372036854775808 ≤ x)
    (h2 : x < 9223372036854775808) : wrapInt64 x = x := by
  unfold wrapInt64
  norm_num
  omega

theorem wrapInt64_of_high (x : Int) (h1 : 9223372036854775808 ≤ x)
    (h2 : x < 27670116110564327424) : wrapInt64 x = x - 18446744073709551616 := by
  unfold wrapInt64
  norm_num
  omega

/-- The lifetime of the entries of the cache built by `Download`, when the
configured minutes fit a 64-bit duration. -/
theorem newDownloadErrorsCache_defaultExpiration (cfg : MediaRepoConfig)
    (h1 : -153722867 ≤ cfg.Downloads.FailureCacheMinutes)
    (h2 : cfg.Downloads.FailureCacheMinutes ≤ 153722867) :
    (newDownloadErrorsCache cfg).defaultExpiration =
      if cfg.Downloads.FailureCacheMinutes = 0 then -1
      else cfg.Downloads.FailureCacheMinutes * time.Minute := by
  have hw : wrapInt64 (cfg.Downloads.FailureCacheMinutes * time.Minute)
      = cfg.Downloads.FailureCacheMinutes * time.Minute := by
    apply wrapInt64_of_range <;> simp only [time.Minute] <;> omega
  simp only [newDownloadErrorsCache, cache.New, hw]
  simp only [time.Minute]
  split_ifs <;> omega

theorem Download_hit (env : DownloadEnv) (cfg : MediaRepoConfig) (st : Option Cache) (now : Int)
    (server mediaId : String) (e : GoError)
    (h : (initErrorsCache cfg st).Get (cacheKey server mediaId) now = some e) :
    Download env cfg st now server mediaId =
      { result := .error e, downloadErrorsCache := some (initErrorsCache cfg st), requests := [] } := by
  simp [Download, h]

theorem Download_transport (env : DownloadEnv) (cfg : MediaRepoConfig) (st : Option Cache)
    (now : Int) (server mediaId : String) (err : GoError)
    (hmiss : (initErrorsCache cfg st).Get (cacheKey server mediaId) now = none)
    (hreply : env.CreateMediaDownloadRequest server mediaId = .error err) :
    Download env cfg st now server mediaId =
      { result := .error err
        downloadErrorsCache := some ((initErrorsCache cfg st).Set (cacheKey server mediaId) err
          cache.DefaultExpiration now)
        requests := [(server, mediaId)] } := by
  simp [Download, hmiss, hreply]

theorem Download_404 (env : DownloadEnv) (cfg : MediaRepoConfig) (st : Option Cache)
    (now : Int) (server mediaId : String) (resp : Response)
    (hmiss : (initErrorsCache cfg st).Get (cacheKey server mediaId) now = none)
    (hreply : env.CreateMediaDownloadRequest server mediaId = .ok resp)
    (hstatus : resp.StatusCode = 404) :
    Download env cfg st now server mediaId =
      { result := .error .ErrMediaNotFound
        downloadErrorsCache := some ((initErrorsCache cfg st).Set (cacheKey server mediaId)
          .ErrMediaNotFound cache.DefaultExpiration now)
        requests := [(server, mediaId)] } := by
  simp [Download, hmiss, hreply, hstatus]

theorem Download_bad_status (env : DownloadEnv) (cfg : MediaRepoConfig) (st : Option Cache)
    (now : Int) (server mediaId : String) (resp : Response)
    (hmiss : (initErrorsCache cfg st).Get (cacheKey server mediaId) now = none)
    (hreply : env.CreateMediaDownloadRequest server mediaId = .ok resp)
    (h404 : resp.StatusCode ≠ 404) (h200 : resp.StatusCode ≠ 200) :
    Download env cfg st now server mediaId =
      { result := .error (.New "could not fetch remote media")
        downloadErrorsCache := some ((initErrorsCache cfg st).Set (cacheKey server mediaId)
          (.New "could not fetch remote media") cache.DefaultExpiration now)
        requests := [(server, mediaId)] } := by
  simp [Download, hmiss, hreply, h404, h200]

theorem Download_unparsable (env : DownloadEnv) (cfg : MediaRepoConfig) (st : Option Cache)
    (now : Int) (server mediaId : String) (resp : Response) (v : Int) (err : GoError)
    (hmiss : (initErrorsCache cfg st).Get (cacheKey server mediaId) now = none)
    (hreply : env.CreateMediaDownloadRequest server mediaId = .ok resp)
    (hstatus : resp.StatusCode = 200)
    (hlen : ParseInt (resp.Header "Content-Length") = (v, some err)) :
    Download env cfg st now server mediaId =
      { result := .error err
        downloadErrorsCache := some (initErrorsCache cfg st)
        requests := [(server, mediaId)] } := by
  simp [Download, hmiss, hreply, hstatus, hlen]

theorem Download_too_large (env : DownloadEnv) (cfg : MediaRepoConfig) (st : Option Cache)
    (now : Int) (server mediaId : String) (resp : Response) (L : Int)
    (hmiss : (initErrorsCache cfg st).Get (cacheKey server mediaId) now = none)
    (hreply : env.CreateMediaDownloadRequest server mediaId = .ok resp)
    (hstatus : resp.StatusCode = 200)
    (hlen : ParseInt (resp.Header "Content-Length") = (L, none))
    (hbig : cfg.Downloads.MaxSizeBytes > 0 ∧ L > cfg.Downloads.MaxSizeBytes) :
    Download env cfg st now server mediaId =
      { result := .error .ErrMediaTooLarge
        downloadErrorsCache := some ((initErrorsCache cfg st).Set (cacheKey server mediaId)
          .ErrMediaTooLarge cache.DefaultExpiration now)
        requests := [(server, mediaId)] } := by
  simp [Download, hmiss, hreply, hstatus, hlen, hbig]

theorem Download_fits (env : DownloadEnv) (cfg : MediaRepoConfig) (st : Option Cache)
    (now : Int) (server mediaId : String) (resp : Response) (L : Int)
    (hmiss : (initErrorsCache cfg st).Get (cacheKey server mediaId) now = none)
    (hreply : env.CreateMediaDownloadRequest server mediaId = .ok resp)
    (hstatus : resp.StatusCode = 200)
    (hlen : ParseInt (resp.Header "Content-Length") = (L, none))
    (hfits : ¬ (cfg.Downloads.MaxSizeBytes > 0 ∧ L > cfg.Downloads.MaxSizeBytes)) :
    ∃ media, Download env cfg st now server mediaId =
        { result := .ok media
          downloadErrorsCache := some (initErrorsCache cfg st)
          requests := [(server, mediaId)] }
      ∧ media.Contents = resp.Body ∧ media.ContentType = resp.Header "Content-Type" := by
  simp only [Download, hmiss, hreply, hstatus, hlen]
  rw [if_neg (by decide), if_neg (by simp), if_neg hfits]
  refine ⟨_, rfl, ?_, ?_⟩
  · split
    · split <;> rfl
    · rfl
  · split
    · split <;> rfl
    · rfl

theorem storedFailure_Set (c : Cache) (k : String) (x : GoError) (d now : Int) :
    storedFailure (some (c.Set k x d now)) k = some x := by
  simp [storedFailure, Cache.Set]

theorem append_slash_cancel (s1 s2 m1 m2 : List Char) (h1 : '/' ∉ s1) (h2 : '/' ∉ s2)
    (h : s1 ++ '/' :: m1 = s2 ++ '/' :: m2) : s1 = s2 ∧ m1 = m2 := by
  induction s1 generalizing s2 with
  | nil =>
    cases s2 with
    | nil => simpa using h
    | cons b t =>
      simp only [List.nil_append, List.cons_append, List.cons.injEq] at h
      exact absurd (h.1 ▸ List.mem_cons_self _ _) h2
  | cons a t ih =>
    cases s2 with
    | nil =>
      simp only [List.nil_append, List.cons_append, List.cons.injEq] at h
      exact absurd (h.1 ▸ List.mem_cons_self _ _) h1
    | cons b u =>
      simp only [List.cons_append, List.cons.injEq] at h
      have := ih u (fun hm => h1 (List.mem_cons_of_mem _ hm))
        (fun hm => h2 (List.mem_cons_of_mem _ hm)) h.2
      exact ⟨by rw [h.1, this.1], this.2⟩

/-- C1 (defect in the code).  A `200` reply without a usable `Content-Length`
header makes `Download` return the parse error without recording it: nothing
is stored under the key, and a second call for the same server and media id
one nanosecond later sends another download request, whereas the sibling
transport-error path stores its error and the second call sends none. -/
theorem Download_parse_failure_not_recorded :
    (Download (constEnv (.ok (okReply ""))) NewDefaultConfig none 0 "a.org" "m").result
        = .error (.NumError "ParseInt" "" .ErrSyntax)
    ∧ storedFailure
        (Download (constEnv (.ok (okReply ""))) NewDefaultConfig none 0 "a.org" "m").downloadErrorsCache
        (cacheKey "a.org" "m") = none
    ∧ (Download (constEnv (.ok (okReply ""))) NewDefaultConfig
        (Download (constEnv (.ok (okReply ""))) NewDefaultConfig none 0 "a.org" "m").downloadErrorsCache
        1 "a.org" "m").requests = [("a.org", "m")]
    ∧ storedFailure
        (Download (constEnv (.error (.Transport "timeout"))) NewDefaultConfig none 0 "a.org"
          "m").downloadErrorsCache
        (cacheKey "a.org" "m") = some (.Transport "timeout")
    ∧ (Download (constEnv (.error (.Transport "timeout"))) NewDefaultConfig
        (Download (constEnv (.error (.Transport "timeout"))) NewDefaultConfig none 0 "a.org"
          "m").downloadErrorsCache
        1 "a.org" "m").requests = [] := by
  refine ⟨by decide, by decide, by decide, by decide, by decide⟩

/-- C2.  For a `200` reply whose `Content-Length` parses to `L`, with no cached
failure for the key and ceiling `M = Downloads.MaxSizeBytes`: when `M > 0` and
`L > M`, `Download` returns `ErrMediaTooLarge` (so no media and no body) and
stores that error under the key; when `M ≤ 0` or `L ≤ M` it returns media
whose contents are the reply's body and whose content type is the reply's. -/
theorem Download_size_ceiling (env : DownloadEnv) (cfg : MediaRepoConfig) (st : Option Cache)
    (now : Int) (server mediaId : String) (resp : Response) (L : Int)
    (hmiss : (initErrorsCache cfg st).Get (cacheKey server mediaId) now = none)
    (hreply : env.CreateMediaDownloadRequest server mediaId = .ok resp)
    (hstatus : resp.StatusCode = 200)
    (hlen : ParseInt (resp.Header "Content-Length") = (L, none)) :
    (cfg.Downloads.MaxSizeBytes > 0 ∧ L > cfg.Downloads.MaxSizeBytes →
        (Download env cfg st now server mediaId).result = .error .ErrMediaTooLarge
        ∧ storedFailure (Download env cfg st now server mediaId).downloadErrorsCache
            (cacheKey server mediaId) = some .ErrMediaTooLarge
        ∧ lookupFailure (Download env cfg st now server mediaId).downloadErrorsCache
            (cacheKey server mediaId) now = some .ErrMediaTooLarge)
    ∧ (cfg.Downloads.MaxSizeBytes ≤ 0 ∨ L ≤ cfg.Downloads.MaxSizeBytes →
        ∃ media, (Download env cfg st now server mediaId).result = .ok media
          ∧ media.Contents = resp.Body ∧ media.ContentType = resp.Header "Content-Type") := by
  constructor
  · intro hbig
    rw [Download_too_large env cfg st now server mediaId resp L hmiss hreply hstatus hlen hbig]
    refine ⟨rfl, storedFailure_Set _ _ _ _ _, ?_⟩
    exact Get_Set_now _ _ _ _
  · intro hfits
    obtain ⟨media, hm, hc, ht⟩ := Download_fits env cfg st now server mediaId resp L hmiss hreply
      hstatus hlen (by omega)
    exact ⟨media, by rw [hm], hc, ht⟩

/-- The size ceiling at the default configuration: a declared length of
105906176 bytes is refused, one of 104857600 bytes is served. -/
theorem Download_size_ceiling_witness :
    ((initErrorsCache NewDefaultConfig none).Get (cacheKey "a.org" "m") 0 = none
      ∧ (okReply "105906176").StatusCode = 200
      ∧ ParseInt ((okReply "105906176").Header "Content-Length") = (105906176, none)
      ∧ (Download (constEnv (.ok (okReply "105906176"))) NewDefaultConfig none 0 "a.org" "m").result
          = .error .ErrMediaTooLarge)
    ∧ (ParseInt ((okReply "104857600").Header "Content-Length") = (104857600, none)
      ∧ ∃ media, (Download (constEnv (.ok (okReply "104857600"))) NewDefaultConfig none 0 "a.org"
            "m").result = .ok media
          ∧ media.Contents = (okReply "104857600").Body
          ∧ media.ContentType = (okReply "104857600").Header "Content-Type") :=
  ⟨⟨by decide, by decide, by decide,
      ((Download_size_ceiling (constEnv (.ok (okReply "105906176"))) NewDefaultConfig none 0
        "a.org" "m" (okReply "105906176") 105906176 (by decide) rfl (by decide) (by decide)).1
        (by decide)).1⟩,
    ⟨by decide,
      (Download_size_ceiling (constEnv (.ok (okReply "104857600"))) NewDefaultConfig none 0
        "a.org" "m" (okReply "104857600") 104857600 (by decide) rfl (by decide) (by decide)).2
        (by decide)⟩⟩

/-- A lookup of a key set with a positive lifetime finds nothing once the
clock reading has passed a positive stored expiry instant. -/
theorem Get_Set_expired (c : Cache) (k : String) (x : GoError) (now now2 : Int)
    (hpos : 0 < wrapInt64 c.defaultExpiration)
    (hexp : 0 < UnixNano (now + wrapInt64 c.defaultExpiration))
    (hlate : UnixNano (now + wrapInt64 c.defaultExpiration) < UnixNano now2) :
    (c.Set k x cache.DefaultExpiration now).Get k now2 = none := by
  simp only [Cache.Set, Cache.Get, cache.DefaultExpiration, if_true]
  split_ifs <;> first | rfl | omega

/-- A lookup of a key just set returns the object or nothing. -/
theorem Get_Set_cases (c : Cache) (k : String) (x : GoError) (d now now2 : Int) :
    (c.Set k x d now).Get k now2 = none ∨ (c.Set k x d now).Get k now2 = some x := by
  simp only [Cache.Set, Cache.Get, if_true]
  split_ifs <;> simp

theorem initErrorsCache_defaultExpiration (cfg : MediaRepoConfig) (st : Option Cache)
    (hbuilt : ∀ c, st = some c →
      c.defaultExpiration = (newDownloadErrorsCache cfg).defaultExpiration) :
    (initErrorsCache cfg st).defaultExpiration = (newDownloadErrorsCache cfg).defaultExpiration := by
  cases st with
  | none => rfl
  | some c => exact hbuilt c rfl

/-- On a miss, an error return of `Download` that is not the unparsable
`Content-Length` return leaves the cache with that error written at `now`. -/
theorem Download_records (env : DownloadEnv) (cfg : MediaRepoConfig) (st : Option Cache)
    (now : Int) (server mediaId : String) (e : GoError)
    (hmiss : (initErrorsCache cfg st).Get (cacheKey server mediaId) now = none)
    (hparsed : ∀ resp, env.CreateMediaDownloadRequest server mediaId = .ok resp →
      resp.StatusCode = 200 → (ParseInt (resp.Header "Content-Length")).2 = none)
    (hres : (Download env cfg st now server mediaId).result = .error e) :
    (Download env cfg st now server mediaId).downloadErrorsCache =
      some ((initErrorsCache cfg st).Set (cacheKey server mediaId) e cache.DefaultExpiration now) := by
  cases hreply : env.CreateMediaDownloadRequest server mediaId with
  | error err =>
    rw [Download_transport env cfg st now server mediaId err hmiss hreply] at hres ⊢
    simp only [Except.error.injEq] at hres
    rw [hres]
  | ok resp =>
    by_cases h404 : resp.StatusCode = 404
    · rw [Download_404 env cfg st now server mediaId resp hmiss hreply h404] at hres ⊢
      simp only [Except.error.injEq] at hres
      rw [hres]
    · by_cases h200 : resp.StatusCode = 200
      · have hp := hparsed resp hreply h200
        have hlen : ParseInt (resp.Header "Content-Length")
            = ((ParseInt (resp.Header "Content-Length")).1, none) := by
          rw [← hp]
        by_cases hbig : cfg.Downloads.MaxSizeBytes > 0 ∧
            (ParseInt (resp.Header "Content-Length")).1 > cfg.Downloads.MaxSizeBytes
        · rw [Download_too_large env cfg st now server mediaId resp _ hmiss hreply h200 hlen
            hbig] at hres ⊢
          simp only [Except.error.injEq] at hres
          rw [hres]
        · obtain ⟨media, hm, -, -⟩ := Download_fits env cfg st now server mediaId resp _ hmiss
            hreply h200 hlen hbig
          rw [hm] at hres
          cases hres
      · rw [Download_bad_status env cfg st now server mediaId resp hmiss hreply h404 h200]
          at hres ⊢
        simp only [Except.error.injEq] at hres
        rw [hres]

/-- The janitor's purge never changes what a later lookup returns. -/
theorem Get_DeleteExpired (c : Cache) (k : String) (purgedAt now : Int)
    (h : UnixNano purgedAt ≤ UnixNano now) :
    (c.DeleteExpired purgedAt).Get k now = c.Get k now := by
  simp only [Cache.DeleteExpired, Cache.Get]
  cases c.items k with
  | none => rfl
  | some item =>
    simp only
    by_cases h1 : item.Expiration > 0 ∧ UnixNano purgedAt > item.Expiration
    · have h2 : item.Expiration > 0 ∧ UnixNano now > item.Expiration := ⟨h1.1, by omega⟩
      simp only [h1, h2, and_self, if_true]
    · simp only [h1, if_false]

/-- Every recorded failure short-circuits: while a lookup still finds the
record, a second `Download` for the same server and media id returns the
identical error and sends no request, whatever the origin would answer. -/
theorem Download_recorded_failure_short_circuits (env env2 : DownloadEnv) (cfg : MediaRepoConfig)
    (st : Option Cache) (now now2 : Int) (server mediaId : String) (e : GoError)
    (hmiss : (initErrorsCache cfg st).Get (cacheKey server mediaId) now = none)
    (hparsed : ∀ resp, env.CreateMediaDownloadRequest server mediaId = .ok resp →
      resp.StatusCode = 200 → (ParseInt (resp.Header "Content-Length")).2 = none)
    (hres : (Download env cfg st now server mediaId).result = .error e)
    (hlive : lookupFailure (Download env cfg st now server mediaId).downloadErrorsCache
      (cacheKey server mediaId) now2 ≠ none) :
    (Download env2 cfg (Download env cfg st now server mediaId).downloadErrorsCache now2 server
        mediaId).result = .error e
    ∧ (Download env2 cfg (Download env cfg st now server mediaId).downloadErrorsCache now2 server
        mediaId).requests = [] := by
  rw [Download_records env cfg st now server mediaId e hmiss hparsed hres] at hlive ⊢
  have hget : (initErrorsCache cfg (some ((initErrorsCache cfg st).Set (cacheKey server mediaId) e
      cache.DefaultExpiration now))).Get (cacheKey server mediaId) now2 = some e := by
    rcases Get_Set_cases (initErrorsCache cfg st) (cacheKey server mediaId) e
      cache.DefaultExpiration now now2 with h | h
    · exact absurd h hlive
    · exact h
  rw [Download_hit env2 cfg _ now2 server mediaId e hget]
  exact ⟨rfl, rfl⟩

/-- C3 (as stated, refuted).  At the default configuration (15 minutes) a
failure recorded at instant 0 is gone one nanosecond after 15 minutes, well
before 2 x 15 minutes have passed. -/
theorem Download_failure_gone_before_double_ttl :
    (Download (constEnv (.error (.Transport "timeout"))) NewDefaultConfig none 0 "a.org" "m").result
        = .error (.Transport "timeout")
    ∧ lookupFailure
        (Download (constEnv (.error (.Transport "timeout"))) NewDefaultConfig none 0 "a.org"
          "m").downloadErrorsCache
        (cacheKey "a.org" "m") (15 * time.Minute) = some (.Transport "timeout")
    ∧ 15 * time.Minute + 1 ≤ 0 + 2 * (NewDefaultConfig.Downloads.FailureCacheMinutes * time.Minute)
    ∧ lookupFailure
        (Download (constEnv (.error (.Transport "timeout"))) NewDefaultConfig none 0 "a.org"
          "m").downloadErrorsCache
        (cacheKey "a.org" "m") (15 * time.Minute + 1) = none := by
  refine ⟨by decide, by decide, by decide, by decide⟩

/-- C3 (amended).  Every failure that `Download` records is stored with expiry
equal to 1 x the configured failure TTL, not 2 x.  With the cache built from
the configuration, `FailureCacheMinutes` fitting a 64-bit duration and all
times Unix nanoseconds from 0 to below 2^63: a lookup of the key at any time
up to `now + FailureCacheMinutes` minutes returns the recorded error; when the
TTL is positive and `now + TTL` is below 2^63, a lookup at any later time
finds nothing; when the TTL is zero or negative, or when `now + TTL` is 2^63
or more (the stored expiry instant wraps negative), the record never
expires. -/
theorem Download_failure_expiry (env : DownloadEnv) (cfg : MediaRepoConfig) (st : Option Cache)
    (now : Int) (server mediaId : String) (e : GoError)
    (hbuilt : ∀ c, st = some c →
      c.defaultExpiration = (newDownloadErrorsCache cfg).defaultExpiration)
    (hrange : -153722867 ≤ cfg.Downloads.FailureCacheMinutes ∧
      cfg.Downloads.FailureCacheMinutes ≤ 153722867)
    (hnow : 0 ≤ now ∧ now < 2 ^ 63)
    (hmiss : (initErrorsCache cfg st).Get (cacheKey server mediaId) now = none)
    (hparsed : ∀ resp, env.CreateMediaDownloadRequest server mediaId = .ok resp →
      resp.StatusCode = 200 → (ParseInt (resp.Header "Content-Length")).2 = none)
    (hres : (Download env cfg st now server mediaId).result = .error e) :
    (∀ now2, 0 ≤ now2 → now2 < 2 ^ 63 →
        now2 ≤ now + cfg.Downloads.FailureCacheMinutes * time.Minute →
        lookupFailure (Download env cfg st now server mediaId).downloadErrorsCache
          (cacheKey server mediaId) now2 = some e)
    ∧ (0 < cfg.Downloads.FailureCacheMinutes →
        now + cfg.Downloads.FailureCacheMinutes * time.Minute < 2 ^ 63 →
        ∀ now2, now2 < 2 ^ 63 →
          now + cfg.Downloads.FailureCacheMinutes * time.Minute < now2 →
          lookupFailure (Download env cfg st now server mediaId).downloadErrorsCache
            (cacheKey server mediaId) now2 = none)
    ∧ (cfg.Downloads.FailureCacheMinutes ≤ 0 →
        ∀ now2, lookupFailure (Download env cfg st now server mediaId).downloadErrorsCache
          (cacheKey server mediaId) now2 = some e)
    ∧ (2 ^ 63 ≤ now + cfg.Downloads.FailureCacheMinutes * time.Minute →
        ∀ now2, lookupFailure (Download env cfg st now server mediaId).downloadErrorsCache
          (cacheKey server mediaId) now2 = some e) := by
  rw [Download_records env cfg st now server mediaId e hmiss hparsed hres]
  have hd := initErrorsCache_defaultExpiration cfg st hbuilt
  rw [newDownloadErrorsCache_defaultExpiration cfg hrange.1 hrange.2] at hd
  simp only [lookupFailure]
  obtain ⟨hr1, hr2⟩ := hrange
  obtain ⟨hn1, hn2⟩ := hnow
  norm_num at hn2
  have hT1 : -9223372036854775808 < cfg.Downloads.FailureCacheMinutes * time.Minute := by
    simp only [time.Minute]; omega
  have hT2 : cfg.Downloads.FailureCacheMinutes * time.Minute < 9223372036854775808 := by
    simp only [time.Minute]; omega
  have hT3 : 0 < cfg.Downloads.FailureCacheMinutes ↔
      0 < cfg.Downloads.FailureCacheMinutes * time.Minute := by
    simp only [time.Minute]; omega
  have hT4 : cfg.Downloads.FailureCacheMinutes = 0 ↔
      cfg.Downloads.FailureCacheMinutes * time.Minute = 0 := by
    simp only [time.Minute]; omega
  generalize cfg.Downloads.FailureCacheMinutes * time.Minute = T at hd hT1 hT2 hT3 hT4 ⊢
  have hD : wrapInt64 (initErrorsCache cfg st).defaultExpiration
      = if cfg.Downloads.FailureCacheMinutes = 0 then -1 else T := by
    rw [hd]
    apply wrapInt64_of_range <;> split_ifs <;> omega
  refine ⟨?_, ?_, ?_, ?_⟩
  · intro now2 h0 h1 h2
    norm_num at h1
    apply Get_Set_same
    rw [hD]
    by_cases hm : cfg.Downloads.FailureCacheMinutes = 0
    · left; rw [if_pos hm]; omega
    · rw [if_neg hm]
      by_cases hpos : T ≤ 0
      · left; exact hpos
      · right
        have hu2 : UnixNano now2 = now2 := wrapInt64_of_range now2 (by omega) h1
        by_cases hfit : now + T < 9223372036854775808
        · right
          have hu : UnixNano (now + T) = now + T := wrapInt64_of_range _ (by omega) hfit
          rw [hu, hu2]; exact h2
        · left
          have hu : UnixNano (now + T) = now + T - 18446744073709551616 :=
            wrapInt64_of_high _ (by omega) (by omega)
          rw [hu]; omega
  · intro hpos hfit now2 h1 h2
    norm_num at h1 hfit
    have hm : ¬ cfg.Downloads.FailureCacheMinutes = 0 := by omega
    have hTpos : 0 < T := hT3.1 hpos
    have hu : UnixNano (now + T) = now + T := wrapInt64_of_range _ (by omega) hfit
    have hu2 : UnixNano now2 = now2 := wrapInt64_of_range now2 (by omega) h1
    apply Get_Set_expired
    · rw [hD, if_neg hm]; exact hTpos
    · rw [hD, if_neg hm, hu]; omega
    · rw [hD, if_neg hm, hu, hu2]; exact h2
  · intro hneg now2
    apply Get_Set_same
    left
    rw [hD]
    split_ifs <;> omega
  · intro hwrap now2
    norm_num at hwrap
    have hm : ¬ cfg.Downloads.FailureCacheMinutes = 0 := by omega
    have hu : UnixNano (now + T) = now + T - 18446744073709551616 :=
      wrapInt64_of_high _ hwrap (by omega)
    apply Get_Set_same
    right; left
    rw [hD, if_neg hm, hu]
    omega

/-- A transport failure at the default configuration, recorded at instant 0,
is still returned 15 minutes later and is gone one nanosecond after that. -/
theorem Download_failure_expiry_witness :
    (∀ c, (none : Option Cache) = some c →
        c.defaultExpiration = (newDownloadErrorsCache NewDefaultConfig).defaultExpiration)
    ∧ (-153722867 ≤ NewDefaultConfig.Downloads.FailureCacheMinutes ∧
        NewDefaultConfig.Downloads.FailureCacheMinutes ≤ 153722867)
    ∧ ((0 : Int) ≤ 0 ∧ (0 : Int) < 2 ^ 63)
    ∧ (initErrorsCache NewDefaultConfig none).Get (cacheKey "a.org" "m") 0 = none
    ∧ (Download (constEnv (.error (.Transport "timeout"))) NewDefaultConfig none 0 "a.org"
        "m").result = .error (.Transport "timeout")
    ∧ lookupFailure
        (Download (constEnv (.error (.Transport "timeout"))) NewDefaultConfig none 0 "a.org"
          "m").downloadErrorsCache
        (cacheKey "a.org" "m") 900000000000 = some (.Transport "timeout")
    ∧ lookupFailure
        (Download (constEnv (.error (.Transport "timeout"))) NewDefaultConfig none 0 "a.org"
          "m").downloadErrorsCache
        (cacheKey "a.org" "m") 900000000001 = none :=
  ⟨(fun _ h => nomatch h), by decide, by decide, by decide, by decide,
    (Download_failure_expiry (constEnv (.error (.Transport "timeout"))) NewDefaultConfig none 0
      "a.org" "m" (.Transport "timeout") (fun _ h => nomatch h) (by decide) (by decide)
      (by decide) (fun _ h => nomatch h) (by decide)).1 900000000000 (by decide) (by decide)
      (by decide),
    (Download_failure_expiry (constEnv (.error (.Transport "timeout"))) NewDefaultConfig none 0
      "a.org" "m" (.Transport "timeout") (fun _ h => nomatch h) (by decide) (by decide)
      (by decide) (fun _ h => nomatch h) (by decide)).2.1 (by decide) (by decide)
      900000000001 (by decide) (by decide)⟩

/-- C7 (as stated, refuted).  Status 204 lies inside 2xx, yet `Download` stops
at the status check with the generic upstream error instead of going on to
the content length. -/
theorem Download_204_stops_at_status :
    (200 ≤ (statusReply 204).StatusCode ∧ (statusReply 204).StatusCode < 300)
    ∧ (initErrorsCache NewDefaultConfig none).Get (cacheKey "a.org" "m") 0 = none
    ∧ ParseInt ((statusReply 204).Header "Content-Length") = (3, none)
    ∧ stopsAtStatusStep
        (Download (constEnv (.ok (statusReply 204))) NewDefaultConfig none 0 "a.org" "m")
    ∧ (Download (constEnv (.ok (statusReply 204))) NewDefaultConfig none 0 "a.org" "m").result
        = .error (.New "could not fetch remote media") := by
  refine ⟨by decide, by decide, by decide, Or.inr (by decide), by decide⟩

/-- C7 (amended).  For every origin response received when no failure is
cached for the key, `Download` stops at the status step if and only if the
status code is not 200; 404 yields `ErrMediaNotFound` and any other status
than 200 yields the generic upstream error, in both cases stored under the key
and no media returned; status 200 proceeds to the content-length step (an
unparsable length is returned as the error, a parsable one leads to
`ErrMediaTooLarge` or to media). -/
theorem Download_status_step (env : DownloadEnv) (cfg : MediaRepoConfig) (st : Option Cache)
    (now : Int) (server mediaId : String) (resp : Response)
    (hmiss : (initErrorsCache cfg st).Get (cacheKey server mediaId) now = none)
    (hreply : env.CreateMediaDownloadRequest server mediaId = .ok resp) :
    (stopsAtStatusStep (Download env cfg st now server mediaId) ↔ resp.StatusCode ≠ 200)
    ∧ (resp.StatusCode = 404 →
        (Download env cfg st now server mediaId).result = .error .ErrMediaNotFound
        ∧ storedFailure (Download env cfg st now server mediaId).downloadErrorsCache
            (cacheKey server mediaId) = some .ErrMediaNotFound)
    ∧ (resp.StatusCode ≠ 404 → resp.StatusCode ≠ 200 →
        (Download env cfg st now server mediaId).result
            = .error (.New "could not fetch remote media")
        ∧ storedFailure (Download env cfg st now server mediaId).downloadErrorsCache
            (cacheKey server mediaId) = some (.New "could not fetch remote media"))
    ∧ (resp.StatusCode = 200 →
        (∀ v err, ParseInt (resp.Header "Content-Length") = (v, some err) →
          (Download env cfg st now server mediaId).result = .error err)
        ∧ (∀ L, ParseInt (resp.Header "Content-Length") = (L, none) →
          (Download env cfg st now server mediaId).result = .error .ErrMediaTooLarge
          ∨ ∃ media, (Download env cfg st now server mediaId).result = .ok media)) := by
  have h404 : resp.StatusCode = 404 →
      (Download env cfg st now server mediaId).result = .error .ErrMediaNotFound
      ∧ storedFailure (Download env cfg st now server mediaId).downloadErrorsCache
          (cacheKey server mediaId) = some .ErrMediaNotFound := by
    intro h
    rw [Download_404 env cfg st now server mediaId resp hmiss hreply h]
    exact ⟨rfl, storedFailure_Set _ _ _ _ _⟩
  have hbad : resp.StatusCode ≠ 404 → resp.StatusCode ≠ 200 →
      (Download env cfg st now server mediaId).result
          = .error (.New "could not fetch remote media")
      ∧ storedFailure (Download env cfg st now server mediaId).downloadErrorsCache
          (cacheKey server mediaId) = some (.New "could not fetch remote media") := by
    intro h1 h2
    rw [Download_bad_status env cfg st now server mediaId resp hmiss hreply h1 h2]
    exact ⟨rfl, storedFailure_Set _ _ _ _ _⟩
  have hbadlen : resp.StatusCode = 200 →
      ∀ v err, ParseInt (resp.Header "Content-Length") = (v, some err) →
        (Download env cfg st now server mediaId).result = .error err := by
    intro h v err hlen
    rw [Download_unparsable env cfg st now server mediaId resp v err hmiss hreply h hlen]
  have hlen : resp.StatusCode = 200 →
      ∀ L, ParseInt (resp.Header "Content-Length") = (L, none) →
        (Download env cfg st now server mediaId).result = .error .ErrMediaTooLarge
        ∨ ∃ media, (Download env cfg st now server mediaId).result = .ok media := by
    intro h L hL
    by_cases hbig : cfg.Downloads.MaxSizeBytes > 0 ∧ L > cfg.Downloads.MaxSizeBytes
    · left
      rw [Download_too_large env cfg st now server mediaId resp L hmiss hreply h hL hbig]
    · right
      obtain ⟨media, hm, -, -⟩ := Download_fits env cfg st now server mediaId resp L hmiss hreply
        h hL hbig
      exact ⟨media, by rw [hm]⟩
  refine ⟨⟨?_, ?_⟩, h404, hbad, fun h => ⟨hbadlen h, hlen h⟩⟩
  · intro hstop h200
    cases hp : ParseInt (resp.Header "Content-Length") with
    | mk v oe =>
      cases oe with
      | some err =>
        obtain ⟨k, hk⟩ := ParseInt_error_kind _ v err hp
        have hr := hbadlen h200 v err hp
        rcases hstop with hs | hs <;> rw [hr, hk] at hs <;> cases hs
      | none =>
        rcases hlen h200 v hp with hr | ⟨media, hr⟩ <;>
          rcases hstop with hs | hs <;> rw [hr] at hs <;> cases hs
  · intro h200
    by_cases h : resp.StatusCode = 404
    · exact Or.inl (h404 h).1
    · exact Or.inr (hbad h h200).1

/-- A 404 reply at the default configuration: `ErrMediaNotFound`, stored. -/
theorem Download_status_step_witness :
    (initErrorsCache NewDefaultConfig none).Get (cacheKey "a.org" "m") 0 = none
    ∧ (statusReply 404).StatusCode = 404
    ∧ (Download (constEnv (.ok (statusReply 404))) NewDefaultConfig none 0 "a.org" "m").result
        = .error .ErrMediaNotFound
    ∧ storedFailure
        (Download (constEnv (.ok (statusReply 404))) NewDefaultConfig none 0 "a.org"
          "m").downloadErrorsCache
        (cacheKey "a.org" "m") = some .ErrMediaNotFound :=
  ⟨by decide, by decide,
    (Download_status_step (constEnv (.ok (statusReply 404))) NewDefaultConfig none 0 "a.org" "m"
      (statusReply 404) (by decide) rfl).2.1 (by decide)⟩

/-- Apart from the key it was called for, `Download` leaves every lookup in
the failure cache as it was. -/
theorem Download_other_key (env : DownloadEnv) (cfg : MediaRepoConfig) (st : Option Cache)
    (now now2 : Int) (server mediaId key2 : String) (hne : key2 ≠ cacheKey server mediaId) :
    lookupFailure (Download env cfg st now server mediaId).downloadErrorsCache key2 now2
      = (initErrorsCache cfg st).Get key2 now2 := by
  cases hget : (initErrorsCache cfg st).Get (cacheKey server mediaId) now with
  | some e => rw [Download_hit env cfg st now server mediaId e hget]; rfl
  | none =>
    cases hreply : env.CreateMediaDownloadRequest server mediaId with
    | error err =>
      rw [Download_transport env cfg st now server mediaId err hget hreply]
      exact Get_Set_other _ _ _ _ _ _ _ hne
    | ok resp =>
      by_cases h404 : resp.StatusCode = 404
      · rw [Download_404 env cfg st now server mediaId resp hget hreply h404]
        exact Get_Set_other _ _ _ _ _ _ _ hne
      · by_cases h200 : resp.StatusCode = 200
        · cases hp : ParseInt (resp.Header "Content-Length") with
          | mk v oe =>
            cases oe with
            | some err =>
              rw [Download_unparsable env cfg st now server mediaId resp v err hget hreply h200 hp]
              rfl
            | none =>
              by_cases hbig : cfg.Downloads.MaxSizeBytes > 0 ∧ v > cfg.Downloads.MaxSizeBytes
              · rw [Download_too_large env cfg st now server mediaId resp v hget hreply h200 hp
                  hbig]
                exact Get_Set_other _ _ _ _ _ _ _ hne
              · obtain ⟨media, hm, -, -⟩ := Download_fits env cfg st now server mediaId resp v
                  hget hreply h200 hp hbig
                rw [hm]
                rfl
        · rw [Download_bad_status env cfg st now server mediaId resp hget hreply h404 h200]
          exact Get_Set_other _ _ _ _ _ _ _ hne

/-- C10.  The failure-cache key `server + "/" + mediaId` is injective on pairs
whose server names contain no `/` (media ids may contain `/`): equal keys
imply equal servers and equal media ids; hence a `Download` for one such pair
leaves the failure lookup of every different pair exactly as it was. -/
theorem cacheKey_injective (s1 m1 s2 m2 : String) (h1 : '/' ∉ s1.data) (h2 : '/' ∉ s2.data) :
    (cacheKey s1 m1 = cacheKey s2 m2 → s1 = s2 ∧ m1 = m2)
    ∧ ((s1, m1) ≠ (s2, m2) → ∀ env cfg st now now2,
        lookupFailure (Download env cfg st now s1 m1).downloadErrorsCache (cacheKey s2 m2) now2
          = (initErrorsCache cfg st).Get (cacheKey s2 m2) now2) := by
  have hinj : cacheKey s1 m1 = cacheKey s2 m2 → s1 = s2 ∧ m1 = m2 := by
    intro h
    have hd := congrArg String.data h
    simp only [cacheKey, String.data_append] at hd
    have hd2 : s1.data ++ '/' :: m1.data = s2.data ++ '/' :: m2.data := by
      simpa using hd
    obtain ⟨ha, hb⟩ := append_slash_cancel _ _ _ _ h1 h2 hd2
    exact ⟨String.ext ha, String.ext hb⟩
  refine ⟨hinj, ?_⟩
  intro hne env cfg st now now2
  apply Download_other_key
  intro hk
  obtain ⟨ha, hb⟩ := hinj hk.symm
  exact hne (by rw [ha, hb])

/-- Two media ids on one server, one of them containing a `/`. -/
theorem cacheKey_injective_witness :
    '/' ∉ "a.org".data ∧ '/' ∉ "a.org".data
    ∧ (cacheKey "a.org" "x/y" = cacheKey "a.org" "x/y" → "a.org" = "a.org" ∧ "x/y" = "x/y")
    ∧ cacheKey "a.org" "x/y" ≠ cacheKey "a.org" "x" :=
  ⟨by decide, by decide,
    (cacheKey_injective "a.org" "x/y" "a.org" "x/y" (by decide) (by decide)).1,
    fun h => absurd ((cacheKey_injective "a.org" "x/y" "a.org" "x" (by decide) (by decide)).1 h).2
      (by decide)⟩

/-! ## Properties of `summarize` -/

theorem flushRun_nil : flushRun [] = [] := by
  simp [flushRun]

theorem runs_head (c : Char) (cs : List Char) :
    ∃ r rest, runs (c :: cs) = (isSpaceClass c, r) :: rest := by
  simp only [runs]
  split
  · split_ifs with h
    · exact ⟨_, _, by rw [h]⟩
    · exact ⟨_, _, rfl⟩
  · exact ⟨_, _, rfl⟩

/-- A non-empty stretch of whitespace in front of a text that does not start
with whitespace is a run of its own. -/
theorem runs_append_space (p : List Char) (hp : p ≠ []) (hall : ∀ c ∈ p, isSpaceClass c = true)
    (t : List Char) (ht : ∀ c cs, t = c :: cs → isSpaceClass c = false) :
    runs (p ++ t) = (true, p) :: runs t := by
  induction p with
  | nil => exact absurd rfl hp
  | cons a p ih =>
    have ha : isSpaceClass a = true := hall a (List.mem_cons_self _ _)
    cases p with
    | nil =>
      cases t with
      | nil => simp [runs, ha]
      | cons c cs =>
        obtain ⟨r, rest, hr⟩ := runs_head c cs
        have hc := ht c cs rfl
        simp only [List.cons_append, List.nil_append]
        rw [runs, hr]
        simp [ha, hc]
    | cons b q =>
      have := ih (by simp) (fun c hc => hall c (List.mem_cons_of_mem _ hc))
      simp only [List.cons_append] at this ⊢
      rw [runs, this]
      simp [ha]

theorem render_runs_cons (f : Bool × List Char → List Char) (hf : ∀ r, f (false, r) = r)
    (c : Char) (cs : List Char) (hc : isSpaceClass c = false) :
    ((runs (c :: cs)).map f).flatten = c :: ((runs cs).map f).flatten := by
  rw [runs]
  split
  · rename_i b r rest heq
    split_ifs with h
    · rw [hc] at h
      subst h
      simp [hf, heq]
    · simp [hc, hf, heq]
  · rename_i heq
    simp [hc, hf, heq]

/-- The element-wise kind of every run. -/
theorem runs_kind (t : List Char) : ∀ x ∈ runs t, ∀ c ∈ x.2, isSpaceClass c = x.1 := by
  induction t with
  | nil => simp [runs]
  | cons a t ih =>
    rw [runs]
    split
    · rename_i b r rest heq
      rw [heq] at ih
      split_ifs with h
      · intro x hx c hc
        rcases List.mem_cons.1 hx with rfl | hx
        · rcases List.mem_cons.1 hc with rfl | hc
          · exact h
          · exact ih (b, r) (List.mem_cons_self _ _) c hc
        · exact ih x (List.mem_cons_of_mem _ hx) c hc
      · intro x hx c hc
        rcases List.mem_cons.1 hx with rfl | hx
        · simp only [List.mem_singleton] at hc
          rw [hc]
        · exact ih x hx c hc
    · intro x hx c hc
      simp only [List.mem_singleton] at hx
      subst hx
      simp only [List.mem_singleton] at hc
      rw [hc]

/-- The scan for `[\s\p{Zs}]{2,}` agrees with the run-by-run description. -/
theorem replaceInteriorWhitespace_eq_runs (t p : List Char)
    (hall : ∀ c ∈ p, isSpaceClass c = true) :
    replaceInteriorWhitespace p t
      = ((runs (p ++ t)).map (fun x => if x.1 then flushRun x.2 else x.2)).flatten := by
  induction t generalizing p with
  | nil =>
    simp only [replaceInteriorWhitespace, List.append_nil]
    by_cases hp : p = []
    · subst hp; simp [runs, flushRun]
    · have := runs_append_space p hp hall [] (fun c cs h => by cases h)
      simp only [List.append_nil] at this
      rw [this]
      simp [runs]
  | cons c cs ih =>
    simp only [replaceInteriorWhitespace]
    by_cases hc : isSpaceClass c = true
    · rw [if_pos hc, ih (p ++ [c])]
      · simp
      · intro d hd
        rcases List.mem_append.1 hd with h | h
        · exact hall d h
        · simp only [List.mem_singleton] at h
          rw [h]; exact hc
    · rw [if_neg hc, ih [] (by simp)]
      have hc2 : isSpaceClass c = false := by simpa using hc
      simp only [List.nil_append]
      by_cases hp : p = []
      · subst hp
        rw [flushRun_nil, List.nil_append, List.nil_append,
          render_runs_cons _ (fun r => by simp) c cs hc2]
      · rw [runs_append_space p hp hall (c :: cs) (fun d ds h => by cases h; exact hc2)]
        simp only [List.map_cons, List.flatten_cons, if_true]
        rw [render_runs_cons _ (fun r => by simp) c cs hc2]

theorem newlineToSpace_of_not_space (c : Char) (h : isSpaceClass c = false) :
    newlineToSpace c = c := by
  unfold newlineToSpace
  split_ifs with hc
  · rcases hc with rfl | rfl <;> simp [isSpaceClass] at h
  · rfl

theorem map_newlineToSpace_flushRun (r : List Char) :
    (flushRun r).map newlineToSpace
      = if 2 ≤ r.length then [' '] else r.map newlineToSpace := by
  unfold flushRun
  split_ifs
  · simp [newlineToSpace]
  · rfl

/-- The three replacements of `summarize` produce the amended normal form. -/
theorem crushWhitespace_eq_normaliseAmended (text : List Char) :
    crushWhitespace text = normaliseAmended text := by
  unfold crushWhitespace normaliseAmended replaceNewlines
  rw [replaceInteriorWhitespace_eq_runs _ [] (by simp), List.nil_append]
  have hk := runs_kind (removeSurroundingWhitespace text)
  generalize runs (removeSurroundingWhitespace text) = rs at hk
  induction rs with
  | nil => simp
  | cons x rs ih =>
    simp only [List.map_cons, List.flatten_cons, List.map_append]
    rw [ih (fun y hy => hk y (List.mem_cons_of_mem _ hy))]
    congr 1
    obtain ⟨b, r⟩ := x
    cases b with
    | true => simp [renderAmended, map_newlineToSpace_flushRun]
    | false =>
      simp only [renderAmended, Bool.false_eq_true, if_false]
      have := hk (false, r) (List.mem_cons_self _ _)
      simp only at this
      conv_rhs => rw [← List.map_id r]
      apply List.map_congr_left
      intro c hc
      exact newlineToSpace_of_not_space c (this c hc)

theorem splitOnSpace_ne_nil (t : List Char) : splitOnSpace t ≠ [] := by
  cases t with
  | nil => simp [splitOnSpace]
  | cons c cs =>
    simp only [splitOnSpace]
    split_ifs
    · simp
    · split <;> simp

theorem intercalate_cons_cons (sep : List Char) (c : Char) (w : List Char)
    (ws : List (List Char)) :
    List.intercalate sep ((c :: w) :: ws) = c :: List.intercalate sep (w :: ws) := by
  cases ws <;> simp [List.intercalate, List.intersperse]

/-- Joining what `strings.Split(text, " ")` produced with `strings.Join` gives back `text`. -/
theorem joinWithSpace_splitOnSpace (t : List Char) : joinWithSpace (splitOnSpace t) = t := by
  induction t with
  | nil => simp [splitOnSpace, joinWithSpace, List.intercalate, List.intersperse]
  | cons c cs ih =>
    simp only [splitOnSpace]
    split_ifs with h
    · unfold joinWithSpace at ih ⊢
      cases hs : splitOnSpace cs with
      | nil => exact absurd hs (splitOnSpace_ne_nil cs)
      | cons w ws =>
        rw [hs] at ih
        simp only [List.intercalate, List.intersperse, List.flatten_cons, List.nil_append] at ih ⊢
        rw [ih, h]
        rfl
    · split
      · rename_i w ws heq
        rw [heq] at ih
        unfold joinWithSpace at ih ⊢
        rw [intercalate_cons_cons, ih]
      · rename_i heq
        exact absurd heq (splitOnSpace_ne_nil cs)

/-- C5 (as stated, refuted).  With word limit 1 the text `a`, tab, `b` is
returned unchanged, while the normalised text of the statement cut to one word
is `a`; the statement's own example (limit 3) does hold. -/
theorem summarize_keeps_lone_tab :
    summarize (configWithWords 1) "a\tb" = "a\tb"
    ∧ String.mk (firstWords 1 (normaliseStated "a\tb".data)) = "a"
    ∧ summarize (configWithWords 1) "a\tb"
        ≠ String.mk (firstWords 1 (normaliseStated "a\tb".data))
    ∧ summarize (configWithWords 3) "The   quick\nbrown   fox jumps" = "The quick brown"
    ∧ String.mk (firstWords 3 (normaliseStated "The   quick\nbrown   fox jumps".data))
        = "The quick brown" := by
  refine ⟨by decide, by decide, by decide, by decide, by decide⟩

/-- C5 (amended).  For every text and every word limit, `summarize(text)` is
the normalised text cut to its first `N` words, where the normalised text is
the text with leading and trailing whitespace removed, every run of two or
more whitespace characters replaced by a single space and every single
carriage return or line feed replaced by a space (any other single whitespace
character is kept), and words are the pieces between single spaces; a
normalised text of fewer than `N` words is returned unmodified. -/
theorem summarize_eq_firstWords (cfg : MediaRepoConfig) (text : String) :
    summarize cfg text
        = String.mk (firstWords cfg.UrlPreviews.NumWords (normaliseAmended text.data))
    ∧ ((splitOnSpace (normaliseAmended text.data)).length < cfg.UrlPreviews.NumWords →
        summarize cfg text = String.mk (normaliseAmended text.data)) := by
  unfold summarize firstWords
  simp only [crushWhitespace_eq_normaliseAmended]
  constructor
  · split_ifs with h
    · rw [List.take_of_length_le (Nat.le_of_lt h), joinWithSpace_splitOnSpace]
    · rfl
  · intro h
    rw [if_pos h]

/-! ## Properties of `calcImages` -/

/-- The value `ParseInt` returns is exact, or one of the three values that
accompany an error. -/
theorem ParseInt_value_cases (s : String) :
    (ParseInt s).2 = none ∨ (ParseInt s).1 = 0 ∨ (ParseInt s).1 = 2 ^ 63 - 1
      ∨ (ParseInt s).1 = -(2 ^ 63) := by
  unfold ParseInt
  split
  · right; left; rfl
  · split
    · right; left; rfl
    · split_ifs
      · right; right; left; rfl
      · right; right; right; rfl
      · left; rfl
      · left; rfl

/-- Without overflow of the product, the callback considers exactly the
qualifying elements, at their area. -/
theorem imageCandidate_eq (n : Node)
    (hfit : 10 ≤ Atoi (n.Attr "width").1 → 10 ≤ Atoi (n.Attr "height").1 →
      Atoi (n.Attr "width").1 * Atoi (n.Attr "height").1 < 2 ^ 63) :
    imageCandidate n =
      if qualifies n then
        some ((n.Attr "src").1, (ParseInt (n.Attr "width").1).1, (ParseInt (n.Attr "height").1).1)
      else none := by
  simp only [Atoi] at hfit
  by_cases hq : qualifies n
  · rw [if_pos hq]
    obtain ⟨h1, h2, h3, h4, -, -, h7, h8⟩ := hq
    have h9 : ¬ ((ParseInt (n.Attr "width").1).1 < 10 ∨ (ParseInt (n.Attr "height").1).1 < 10) := by
      omega
    simp [imageCandidate, Atoi, h1, h2, h3, h4, h9]
  · rw [if_neg hq]
    simp only [imageCandidate, Atoi]
    split_ifs with c1 c2 c3 c4
    · rfl
    · rfl
    · rfl
    · rfl
    · exfalso
      apply hq
      have h5 : 10 ≤ (ParseInt (n.Attr "width").1).1 ∧ 10 ≤ (ParseInt (n.Attr "height").1).1 := by
        omega
      have hf := hfit h5.1 h5.2
      have hwn : (ParseInt (n.Attr "width").1).2 = none := by
        rcases ParseInt_value_cases (n.Attr "width").1 with h | h | h | h
        · exact h
        · omega
        · rw [h] at hf; nlinarith [h5.2]
        · omega
      have hhn : (ParseInt (n.Attr "height").1).2 = none := by
        rcases ParseInt_value_cases (n.Attr "height").1 with h | h | h | h
        · exact h
        · omega
        · rw [h] at hf; nlinarith [h5.1]
        · omega
      simp only [Bool.or_eq_true, Bool.not_eq_true', decide_eq_true_eq, not_or] at c1
      simp only [Bool.not_eq_true', Bool.not_eq_false] at c2 c3
      refine ⟨by simpa using c1.1, c1.2, c2, c3, hwn, hhn, h5.1, h5.2⟩

theorem wrapInt64_area (n : Node) (hq : qualifies n)
    (hfit : area n < 2 ^ 63) : wrapInt64 (area n) = area n ∧ 100 ≤ area n := by
  have h100 : 100 ≤ area n := by
    unfold area
    obtain ⟨-, -, -, -, -, -, hw, hh⟩ := hq
    nlinarith
  refine ⟨?_, h100⟩
  apply wrapInt64_of_range <;> omega

theorem eachImage_loop (l : List Node)
    (hfit : ∀ n ∈ l, 10 ≤ Atoi (n.Attr "width").1 → 10 ≤ Atoi (n.Attr "height").1 →
      Atoi (n.Attr "width").1 * Atoi (n.Attr "height").1 < 2 ^ 63) :
    ImageLoopInv l (l.foldl eachImage ("", 0)) := by
  induction l using List.reverseRecOn with
  | nil => exact Or.inl ⟨by simp, rfl⟩
  | append_singleton l a ih =>
    have ih := ih (fun n hn => hfit n (List.mem_append_left _ hn))
    have hfa := hfit a (by simp)
    rw [List.foldl_append, List.foldl_cons, List.foldl_nil]
    generalize l.foldl eachImage ("", 0) = acc at ih
    unfold eachImage
    rw [imageCandidate_eq a hfa]
    by_cases hq : qualifies a
    · rw [if_pos hq]
      have harea : area a < 2 ^ 63 := by
        obtain ⟨-, -, -, -, -, -, hw, hh⟩ := hq
        exact hfa hw hh
      obtain ⟨hwrap, h100⟩ := wrapInt64_area a hq harea
      have hw2 : wrapInt64 ((ParseInt (a.Attr "width").1).1 * (ParseInt (a.Attr "height").1).1)
          = area a := hwrap
      simp only [hw2]
      rcases ih with ⟨hnone, hacc⟩ | ⟨x, ⟨pre, post, hl, hqx, hpre, hpost⟩, hacc⟩
      · subst hacc
        simp only [or_true, if_true]
        right
        exact ⟨a, ⟨l, [], rfl, hq, fun y hy hqy => absurd hqy (hnone y hy), by simp⟩, rfl⟩
      · subst hacc
        simp only
        by_cases hlt : area a < area x
        · rw [if_pos (Or.inl hlt)]
          right
          refine ⟨a, ⟨l, [], rfl, hq, ?_, by simp⟩, rfl⟩
          intro y hy hqy
          rw [hl] at hy
          rcases List.mem_append.1 hy with h | h
          · exact lt_trans hlt (hpre y h hqy)
          · rcases List.mem_cons.1 h with rfl | h
            · exact hlt
            · exact lt_of_lt_of_le hlt (hpost y h hqy)
        · have hx100 : 100 ≤ area x := by
            unfold area
            obtain ⟨-, -, -, -, -, -, hw, hh⟩ := hqx
            nlinarith
          have : ¬ (area a < area x ∨ area x = 0) := by omega
          rw [if_neg this]
          right
          refine ⟨x, ⟨pre, post ++ [a], by rw [hl]; simp, hqx, hpre, ?_⟩, rfl⟩
          intro y hy hqy
          rcases List.mem_append.1 hy with h | h
          · exact hpost y h hqy
          · simp only [List.mem_singleton] at h
            subst h
            omega
    · rw [if_neg hq]
      rcases ih with ⟨hnone, hacc⟩ | ⟨x, ⟨pre, post, hl, hqx, hpre, hpost⟩, hacc⟩
      · left
        refine ⟨?_, hacc⟩
        intro n hn
        rcases List.mem_append.1 hn with h | h
        · exact hnone n h
        · simp only [List.mem_singleton] at h
          subst h
          exact hq
      · right
        refine ⟨x, ⟨pre, post ++ [a], by rw [hl]; simp, hqx, hpre, ?_⟩, hacc⟩
        intro y hy hqy
        rcases List.mem_append.1 hy with h | h
        · exact hpost y h hqy
        · simp only [List.mem_singleton] at h
          subst h
          exact absurd hqy hq

/-- C6 (as stated, refuted).  A single element with `src=a`, `width` and
`height` both 4294967296 qualifies, yet `calcImages` returns no image: the
64-bit product of the sides is 0. -/
theorem selectImage_overflow_drops_image :
    qualifies (imgElement "a" "4294967296" "4294967296")
    ∧ area (imgElement "a" "4294967296" "4294967296") = 2 ^ 64
    ∧ selectImage [imgElement "a" "4294967296" "4294967296"] = []
    ∧ calcImages (sampleEnv unreachable unreachable emptyOpenGraph
        (fun _ => [imgElement "a" "4294967296" "4294967296"])) [] = [] := by
  refine ⟨by decide, by decide, by decide, by decide⟩

/-- C6 (amended).  For every parsed page whose `<img>` elements, in document
order, have no 64-bit overflow in `width * height` (the product of two sides
that are both at least 10 stays below 2^63): `calcImages` returns at most one
image; when no element qualifies the result is empty; otherwise the result is
the `src` of the qualifying element of minimal area, the first in document
order among those of minimal area. -/
theorem calcImages_first_of_minimal_area (env : PreviewEnv) (html : Html) (doc : Document)
    (hparse : env.NewDocumentFromReader html = .ok doc)
    (hfit : ∀ n ∈ doc.Find "img",
      10 ≤ Atoi (n.Attr "width").1 → 10 ≤ Atoi (n.Attr "height").1 →
        Atoi (n.Attr "width").1 * Atoi (n.Attr "height").1 < 2 ^ 63) :
    (calcImages env html).length ≤ 1
    ∧ ((∀ n ∈ doc.Find "img", ¬ qualifies n) → calcImages env html = [])
    ∧ ((∃ n ∈ doc.Find "img", qualifies n) →
        ∃ x, firstOfMinimalArea (doc.Find "img") x
          ∧ calcImages env html = [{ URL := (x.Attr "src").1 }]) := by
  have hinv := eachImage_loop (doc.Find "img") hfit
  have hcalc : calcImages env html = selectImage (doc.Find "img") := by
    simp [calcImages, hparse]
  rw [hcalc]
  unfold selectImage
  rcases hinv with ⟨hnone, hacc⟩ | ⟨x, hx, hacc⟩
  · rw [hacc]
    refine ⟨by simp, fun _ => by simp, ?_⟩
    rintro ⟨n, hn, hq⟩
    exact absurd hq (hnone n hn)
  · rw [hacc]
    obtain ⟨pre, post, hl, hqx, hpre, hpost⟩ := hx
    have hsrc : (x.Attr "src").1 ≠ "" := hqx.2.1
    have h100 : 100 ≤ area x := by
      unfold area
      obtain ⟨-, -, -, -, -, -, hw, hh⟩ := hqx
      nlinarith
    have hcond : ¬ ((x.Attr "src").1 = "" ∨ area x ≤ 0) := by
      rintro (h | h)
      · exact hsrc h
      · omega
    simp only [hcond, if_false]
    refine ⟨by simp, ?_, fun _ => ⟨x, ⟨pre, post, hl, hqx, hpre, hpost⟩, rfl⟩⟩
    intro hnone
    exact absurd hqx (hnone x (by rw [hl]; simp))

/-- The example of the specification: `a` of 100 by 100 followed by `b` of
10 by 10 gives `b`. -/
theorem calcImages_first_of_minimal_area_witness :
    (∃ n ∈ Document.Find twoImages "img", qualifies n)
    ∧ (∃ x, firstOfMinimalArea (Document.Find twoImages "img") x
        ∧ calcImages (sampleEnv unreachable unreachable emptyOpenGraph (fun _ => twoImages)) []
            = [{ URL := (x.Attr "src").1 }])
    ∧ calcImages (sampleEnv unreachable unreachable emptyOpenGraph (fun _ => twoImages)) []
        = [{ URL := "b" }] :=
  ⟨by decide,
    (calcImages_first_of_minimal_area
      (sampleEnv unreachable unreachable emptyOpenGraph (fun _ => twoImages)) [] twoImages rfl
      (by decide)).2.2 (by decide),
    by decide⟩

/-! ## Properties of `GeneratePreview` -/

/-- The function `GeneratePreview`, split at the construction of `graph`. -/
theorem GeneratePreview_eq (env : PreviewEnv) (cfg : MediaRepoConfig) (urlStr : String) :
    GeneratePreview env cfg urlStr =
      match downloadContent env cfg urlStr with
      | .error _ => .error .ErrMediaNotFound
      | .ok html =>
        match env.ProcessHTML html with
        | .error err => .error err
        | .ok og => attachImage env cfg urlStr (withFallbacks env html og) := by
  unfold GeneratePreview
  split
  · rfl
  · split
    · rfl
    · rfl

/-- Once the page is downloaded and its OpenGraph data parsed,
`GeneratePreview` succeeds: it returns the result built from the data after
fallbacks, with or without an image. -/
theorem GeneratePreview_shape (env : PreviewEnv) (cfg : MediaRepoConfig) (urlStr : String)
    (html : Html) (og : OpenGraph)
    (hdl : downloadContent env cfg urlStr = .ok html)
    (hog : env.ProcessHTML html = .ok og) :
    ∃ image, GeneratePreview env cfg urlStr
      = .ok { resultWithoutImage cfg (withFallbacks env html og) with Image := image } := by
  rw [GeneratePreview_eq]
  simp only [hdl, hog]
  unfold attachImage
  split
  · exact ⟨none, rfl⟩
  · split
    · exact ⟨none, rfl⟩
    · split
      · exact ⟨none, rfl⟩
      · split
        · exact ⟨none, rfl⟩
        · exact ⟨some _, rfl⟩

/-- When the image step fails, the result carries no image. -/
theorem GeneratePreview_image_failure (env : PreviewEnv) (cfg : MediaRepoConfig)
    (urlStr : String) (html : Html) (og : OpenGraph) (first : OgImage) (rest : List OgImage)
    (hdl : downloadContent env cfg urlStr = .ok html)
    (hog : env.ProcessHTML html = .ok og)
    (himgs : (withFallbacks env html og).Images = first :: rest)
    (hfail : imageStepFails env urlStr first) :
    GeneratePreview env cfg urlStr = .ok (resultWithoutImage cfg (withFallbacks env html og)) := by
  rw [GeneratePreview_eq]
  simp only [hdl, hog]
  unfold attachImage
  rw [himgs]
  simp only
  rcases hfail with ⟨e, he⟩ | ⟨e, he⟩ | ⟨baseUrl, imgUrl, e, hb, hi, hd⟩
  · rw [he]
  · cases hb : env.urlParse urlStr with
    | error e2 => rfl
    | ok baseUrl => simp only [he]
  · simp only [hb, hi, hd]

theorem calcTitle_eq_firstNonEmpty (env : PreviewEnv) (html : Html) (doc : Document)
    (hdoc : env.NewDocumentFromReader html = .ok doc) :
    calcTitle env html =
      firstNonEmpty [selectionText (doc.Find "title"), selectionText (doc.Find "h1"),
        selectionText (doc.Find "h2"), selectionText (doc.Find "h3")] := by
  simp only [calcTitle, hdoc, firstNonEmpty, List.find?]
  split_ifs <;> simp_all

theorem withFallbacks_fields (env : PreviewEnv) (html : Html) (og : OpenGraph) :
    (withFallbacks env html og).Title = (if og.Title = "" then calcTitle env html else og.Title)
    ∧ (withFallbacks env html og).Description
        = (if og.Description = "" then calcDescription env html else og.Description)
    ∧ (withFallbacks env html og).Type_ = og.Type_
    ∧ (withFallbacks env html og).URL = og.URL
    ∧ (withFallbacks env html og).SiteName = og.SiteName := by
  by_cases h1 : og.Title = "" <;> by_cases h2 : og.Description = "" <;>
    by_cases h3 : og.Images.length = 0 <;> simp [withFallbacks, h1, h2, h3]

/-- C8.  For every page that downloads and parses successfully,
`GeneratePreview` returns a preview whose `Title` is the OpenGraph title when
that is non-empty, and otherwise the first non-empty value, in this order, of
the text of the page's `<title>`, `<h1>`, `<h2>`, `<h3>` elements, the empty
string when all four are empty. -/
theorem GeneratePreview_title (env : PreviewEnv) (cfg : MediaRepoConfig) (urlStr : String)
    (html : Html) (og : OpenGraph) (doc : Document)
    (hdl : downloadContent env cfg urlStr = .ok html)
    (hog : env.ProcessHTML html = .ok og)
    (hdoc : env.NewDocumentFromReader html = .ok doc) :
    ∃ r, GeneratePreview env cfg urlStr = .ok r
      ∧ r.Title =
        if og.Title ≠ "" then og.Title
        else firstNonEmpty [selectionText (doc.Find "title"), selectionText (doc.Find "h1"),
          selectionText (doc.Find "h2"), selectionText (doc.Find "h3")] := by
  obtain ⟨image, h⟩ := GeneratePreview_shape env cfg urlStr html og hdl hog
  refine ⟨_, h, ?_⟩
  simp only [resultWithoutImage, (withFallbacks_fields env html og).1,
    calcTitle_eq_firstNonEmpty env html doc hdoc]
  split_ifs <;> simp_all

/-- The example of the specification: no `<title>`, no OpenGraph title and one
`<h1>Hello</h1>` give the title `Hello`. -/
theorem GeneratePreview_title_witness :
    downloadContent (sampleEnv (.ok (pageReply 5 [1, 2, 3, 4, 5])) unreachable emptyOpenGraph
        (fun _ => helloPage)) NewDefaultConfig "http://example.org/" = .ok [1, 2, 3, 4, 5]
    ∧ (∃ r, GeneratePreview (sampleEnv (.ok (pageReply 5 [1, 2, 3, 4, 5])) unreachable
          emptyOpenGraph (fun _ => helloPage)) NewDefaultConfig "http://example.org/" = .ok r
        ∧ r.Title =
          if emptyOpenGraph.Title ≠ "" then emptyOpenGraph.Title
          else firstNonEmpty [selectionText (helloPage.Find "title"),
            selectionText (helloPage.Find "h1"), selectionText (helloPage.Find "h2"),
            selectionText (helloPage.Find "h3")])
    ∧ (GeneratePreview (sampleEnv (.ok (pageReply 5 [1, 2, 3, 4, 5])) unreachable
          emptyOpenGraph (fun _ => helloPage)) NewDefaultConfig "http://example.org/").toOption.map
        (fun r => r.Title) = some "Hello" :=
  ⟨by decide,
    GeneratePreview_title (sampleEnv (.ok (pageReply 5 [1, 2, 3, 4, 5])) unreachable
      emptyOpenGraph (fun _ => helloPage)) NewDefaultConfig "http://example.org/"
      [1, 2, 3, 4, 5] emptyOpenGraph helloPage (by decide) rfl rfl,
    by decide⟩

theorem downloadContent_congr (env env2 : PreviewEnv) (cfg : MediaRepoConfig) (urlStr : String)
    (h : env2.httpGet 0 = env.httpGet 0) :
    downloadContent env2 cfg urlStr = downloadContent env cfg urlStr := by
  simp only [downloadContent, h]

theorem withFallbacks_congr (env env2 : PreviewEnv) (html : Html) (og : OpenGraph)
    (h : env2.NewDocumentFromReader = env.NewDocumentFromReader) :
    (withFallbacks env2 html og).Title = (withFallbacks env html og).Title
    ∧ (withFallbacks env2 html og).Description = (withFallbacks env html og).Description
    ∧ (withFallbacks env2 html og).Type_ = (withFallbacks env html og).Type_
    ∧ (withFallbacks env2 html og).URL = (withFallbacks env html og).URL
    ∧ (withFallbacks env2 html og).SiteName = (withFallbacks env html og).SiteName := by
  have ht : calcTitle env2 html = calcTitle env html := by simp only [calcTitle, h]
  have hd : calcDescription env2 html = calcDescription env html := by
    simp only [calcDescription, h]
  obtain ⟨a1, a2, a3, a4, a5⟩ := withFallbacks_fields env html og
  obtain ⟨b1, b2, b3, b4, b5⟩ := withFallbacks_fields env2 html og
  rw [a1, a2, a3, a4, a5, b1, b2, b3, b4, b5, ht, hd]
  exact ⟨rfl, rfl, rfl, rfl, rfl⟩

/-- C9.  For every url whose page downloads and whose OpenGraph parse
succeeds: if an image candidate exists but parsing the base url, parsing the
image url or downloading the image fails, `GeneratePreview` still returns a
result and no error; the result has no `Image`, and its `Url`, `SiteName`,
`Type`, `Title` and `Description` are the values returned in every world with
the same page reply and the same parsers, whatever happens to the image
there, in particular when the image download succeeds. -/
theorem GeneratePreview_image_failure_nonfatal (env : PreviewEnv) (cfg : MediaRepoConfig)
    (urlStr : String) (html : Html) (og : OpenGraph) (first : OgImage) (rest : List OgImage)
    (hdl : downloadContent env cfg urlStr = .ok html)
    (hog : env.ProcessHTML html = .ok og)
    (himgs : (withFallbacks env html og).Images = first :: rest)
    (hfail : imageStepFails env urlStr first) :
    ∃ r, GeneratePreview env cfg urlStr = .ok r ∧ r.Image = none
      ∧ ∀ env2 : PreviewEnv, env2.httpGet 0 = env.httpGet 0 →
          env2.ProcessHTML = env.ProcessHTML →
          env2.NewDocumentFromReader = env.NewDocumentFromReader →
          ∃ r2, GeneratePreview env2 cfg urlStr = .ok r2
            ∧ r2.Url = r.Url ∧ r2.SiteName = r.SiteName ∧ r2.Type_ = r.Type_
            ∧ r2.Title = r.Title ∧ r2.Description = r.Description := by
  refine ⟨_, GeneratePreview_image_failure env cfg urlStr html og first rest hdl hog himgs hfail,
    rfl, ?_⟩
  intro env2 h0 hp hd
  have hdl2 : downloadContent env2 cfg urlStr = .ok html := by
    rw [downloadContent_congr env env2 cfg urlStr h0, hdl]
  have hog2 : env2.ProcessHTML html = .ok og := by rw [hp, hog]
  obtain ⟨image, h2⟩ := GeneratePreview_shape env2 cfg urlStr html og hdl2 hog2
  obtain ⟨c1, c2, c3, c4, c5⟩ := withFallbacks_congr env env2 html og hd
  refine ⟨_, h2, ?_⟩
  simp only [resultWithoutImage, c1, c2, c3, c4, c5]
  exact ⟨trivial, trivial, trivial, trivial, trivial⟩

/-- A page with one image candidate whose download is refused: the preview is
returned without an image, with the fields it has when the image is served. -/
theorem GeneratePreview_image_failure_nonfatal_witness :
    imageStepFails (sampleEnv (.ok (pageReply 5 [1, 2, 3, 4, 5])) unreachable openGraphWithImage
        (fun _ => helloPage)) "http://example.org/" { URL := "/cat.png" }
    ∧ (∃ r, GeneratePreview (sampleEnv (.ok (pageReply 5 [1, 2, 3, 4, 5])) unreachable
          openGraphWithImage (fun _ => helloPage)) NewDefaultConfig "http://example.org/" = .ok r
        ∧ r.Image = none
        ∧ ∃ r2, GeneratePreview (sampleEnv (.ok (pageReply 5 [1, 2, 3, 4, 5]))
              (.ok (pageReply 3 [7, 8, 9])) openGraphWithImage (fun _ => helloPage))
              NewDefaultConfig "http://example.org/" = .ok r2
            ∧ r2.Url = r.Url ∧ r2.SiteName = r.SiteName ∧ r2.Type_ = r.Type_
            ∧ r2.Title = r.Title ∧ r2.Description = r.Description)
    ∧ (GeneratePreview (sampleEnv (.ok (pageReply 5 [1, 2, 3, 4, 5]))
          (.ok (pageReply 3 [7, 8, 9])) openGraphWithImage (fun _ => helloPage))
          NewDefaultConfig "http://example.org/").toOption.bind (fun r => r.Image)
        = some { ContentType := "text/html", Data := { data := [7, 8, 9], err := none },
                 Filename := "", ContentLength := 3, ContentLengthHeader := "" } :=
  ⟨Or.inr (Or.inr ⟨_, _, _, rfl, rfl, rfl⟩),
    (GeneratePreview_image_failure_nonfatal
        (sampleEnv (.ok (pageReply 5 [1, 2, 3, 4, 5])) unreachable openGraphWithImage
          (fun _ => helloPage)) NewDefaultConfig "http://example.org/" [1, 2, 3, 4, 5]
        openGraphWithImage { URL := "/cat.png" } [] (by decide) rfl (by decide)
        (Or.inr (Or.inr ⟨_, _, _, rfl, rfl, rfl⟩))).imp
      (fun _ h => ⟨h.1, h.2.1, h.2.2 (sampleEnv (.ok (pageReply 5 [1, 2, 3, 4, 5]))
        (.ok (pageReply 3 [7, 8, 9])) openGraphWithImage (fun _ => helloPage)) rfl rfl rfl⟩),
    by decide⟩

/-! ## The page-size ceiling -/

/-- C4 (as stated, refuted).  At the default ceiling a page declaring one byte
more than the ceiling makes `GeneratePreview` fail with `ErrMediaNotFound`,
not with the too-large error; and with a ceiling of 4 bytes a page of 5 bytes
without a declared length yields a successful preview built from its first 4
bytes (the title is `hi!!`, the page was `hi!!!`). -/
theorem GeneratePreview_oversize_page :
    (0 < NewDefaultConfig.UrlPreviews.MaxPageSizeBytes
      ∧ (pageReply 10485761 [104, 105]).ContentLength > NewDefaultConfig.UrlPreviews.MaxPageSizeBytes
      ∧ GeneratePreview (sampleEnv (.ok (pageReply 10485761 [104, 105])) unreachable
          emptyOpenGraph titleOnly) NewDefaultConfig "http://example.org/"
          = .error .ErrMediaNotFound
      ∧ GeneratePreview (sampleEnv (.ok (pageReply 10485761 [104, 105])) unreachable
          emptyOpenGraph titleOnly) NewDefaultConfig "http://example.org/"
          ≠ .error .ErrMediaTooLarge)
    ∧ (0 < (configWithPageSize 4).UrlPreviews.MaxPageSizeBytes
      ∧ (4 : Int) < ((pageReply (-1) [104, 105, 33, 33, 33]).Body.data.length : Int)
      ∧ downloadContent (sampleEnv (.ok (pageReply (-1) [104, 105, 33, 33, 33])) unreachable
          emptyOpenGraph titleOnly) (configWithPageSize 4) "http://example.org/"
          = .ok [104, 105, 33, 33]
      ∧ GeneratePreview (sampleEnv (.ok (pageReply (-1) [104, 105, 33, 33, 33])) unreachable
          emptyOpenGraph titleOnly) (configWithPageSize 4) "http://example.org/"
          = .ok { Url := "", SiteName := "", Type_ := "", Description := "", Title := "hi!!",
                  Image := none }) := by
  refine ⟨⟨by decide, by decide, by decide, by decide⟩, by decide, by decide, by decide, by decide⟩

/-- C4 (amended).  For every url, with ceiling `M = UrlPreviews.MaxPageSizeBytes
> 0` and a page reply of status 200: if the declared content length exceeds
`M`, the download fails with the too-large error and `GeneratePreview` fails
with `ErrMediaNotFound`, returning no preview; if the declared length is
absent or at most `M` while more than `M` body bytes are sent, only the first
`M` bytes are read, and whenever their OpenGraph parse succeeds
`GeneratePreview` returns the preview built from those `M` bytes. -/
theorem GeneratePreview_page_size (env : PreviewEnv) (cfg : MediaRepoConfig) (urlStr : String)
    (resp : Response)
    (hM : cfg.UrlPreviews.MaxPageSizeBytes > 0)
    (hreply : env.httpGet 0 urlStr = .ok resp)
    (hstatus : resp.StatusCode = 200) :
    (resp.ContentLength > cfg.UrlPreviews.MaxPageSizeBytes →
        downloadContent env cfg urlStr = .error .ErrMediaTooLarge
        ∧ GeneratePreview env cfg urlStr = .error .ErrMediaNotFound)
    ∧ (resp.ContentLength ≤ cfg.UrlPreviews.MaxPageSizeBytes →
        cfg.UrlPreviews.MaxPageSizeBytes < resp.Body.data.length →
        downloadContent env cfg urlStr
            = .ok (resp.Body.data.take cfg.UrlPreviews.MaxPageSizeBytes.toNat)
        ∧ ∀ og, env.ProcessHTML (resp.Body.data.take cfg.UrlPreviews.MaxPageSizeBytes.toNat)
              = .ok og →
            ∃ image, GeneratePreview env cfg urlStr
              = .ok { resultWithoutImage cfg
                        (withFallbacks env
                          (resp.Body.data.take cfg.UrlPreviews.MaxPageSizeBytes.toNat) og) with
                      Image := image }) := by
  constructor
  · intro hbig
    have hdl : downloadContent env cfg urlStr = .error .ErrMediaTooLarge := by
      have h0 : resp.ContentLength ≥ 0 := by omega
      simp [downloadContent, hreply, hstatus, hM, hbig, h0]
    refine ⟨hdl, ?_⟩
    rw [GeneratePreview_eq, hdl]
  · intro hsmall hlong
    have hdl : downloadContent env cfg urlStr
        = .ok (resp.Body.data.take cfg.UrlPreviews.MaxPageSizeBytes.toNat) := by
      have h1 : ¬ (cfg.UrlPreviews.MaxPageSizeBytes > 0 ∧ resp.ContentLength ≥ 0 ∧
          resp.ContentLength > cfg.UrlPreviews.MaxPageSizeBytes) := by omega
      have h2 : cfg.UrlPreviews.MaxPageSizeBytes.toNat ≤ resp.Body.data.length := by omega
      simp only [downloadContent, hreply, hstatus]
      rw [if_neg (by simp), if_neg h1, if_pos hM]
      simp [LimitReader, h2, ReadAll]
    exact ⟨hdl, fun og hog => GeneratePreview_shape env cfg urlStr _ og hdl hog⟩

/-- A page declaring one byte more than the default ceiling is refused as too
large and the preview fails as not found; a page of five bytes with no
declared length under a ceiling of four bytes is read up to its fourth byte. -/
theorem GeneratePreview_page_size_witness :
    (NewDefaultConfig.UrlPreviews.MaxPageSizeBytes > 0
      ∧ (pageReply 10485761 [104, 105]).StatusCode = 200
      ∧ (pageReply 10485761 [104, 105]).ContentLength
          > NewDefaultConfig.UrlPreviews.MaxPageSizeBytes
      ∧ downloadContent (sampleEnv (.ok (pageReply 10485761 [104, 105])) unreachable
          emptyOpenGraph titleOnly) NewDefaultConfig "http://example.org/"
          = .error .ErrMediaTooLarge
      ∧ GeneratePreview (sampleEnv (.ok (pageReply 10485761 [104, 105])) unreachable
          emptyOpenGraph titleOnly) NewDefaultConfig "http://example.org/"
          = .error .ErrMediaNotFound)
    ∧ ((configWithPageSize 4).UrlPreviews.MaxPageSizeBytes > 0
      ∧ (pageReply (-1) [104, 105, 33, 33, 33]).ContentLength
          ≤ (configWithPageSize 4).UrlPreviews.MaxPageSizeBytes
      ∧ (configWithPageSize 4).UrlPreviews.MaxPageSizeBytes
          < (pageReply (-1) [104, 105, 33, 33, 33]).Body.data.length
      ∧ downloadContent (sampleEnv (.ok (pageReply (-1) [104, 105, 33, 33, 33])) unreachable
          emptyOpenGraph titleOnly) (configWithPageSize 4) "http://example.org/"
          = .ok [104, 105, 33, 33]) :=
  ⟨⟨by decide, by decide, by decide,
      (GeneratePreview_page_size (sampleEnv (.ok (pageReply 10485761 [104, 105])) unreachable
        emptyOpenGraph titleOnly) NewDefaultConfig "http://example.org/"
        (pageReply 10485761 [104, 105]) (by decide) rfl (by decide)).1 (by decide)⟩,
    ⟨by decide, by decide, by decide,
      ((GeneratePreview_page_size (sampleEnv (.ok (pageReply (-1) [104, 105, 33, 33, 33]))
        unreachable emptyOpenGraph titleOnly) (configWithPageSize 4) "http://example.org/"
        (pageReply (-1) [104, 105, 33, 33, 33]) (by decide) rfl (by decide)).2 (by decide)
        (by decide)).1⟩⟩

end MediaRepo
